import Mathlib

/-!
# Target selection and action dispatch of `UnitAI`

A shallow embedding of `src/server/game/AI/CoreAI/UnitAI.cpp`.

* A non-null `Unit*` is the identity of a unit; a nullable `Unit*` is an `Option`.
* `float` values are rationals, `uint32` counters are natural numbers; the range arithmetic
  of the spell-legality selector is in single precision (`F32`), rounded after each operation.
* Everything the code reads through `me` or through a candidate unit, and every
  collaborator that is declared outside this file of the repository, is a field of
  `Actor` (observations) or an explicit parameter (random helpers, flag constants).
* Calls that act on the outside world (`AttackerStateUpdate`, `resetAttackTimer`,
  `CastSpell`) are appended to the actor's call trace in program order.
* The static spell table is a `SpellMgr`; the classification cache is the list built by
  `FillAISpellInfo`, indexed by spell id.
-/

namespace UnitAI

/-! ## Data model -/

/-- Identity of a game unit, that is a non-null `Unit*`; pointer comparison is equality. -/
abbrev Unit : Type := Nat

/-- Values of `enum class SelectTargetMethod`; `Unrecognized` stands for every value of the
underlying integer type that is none of the five enumerators. -/
inductive SelectTargetMethod where
  | Random
  | MaxThreat
  | MinThreat
  | MaxDistance
  | MinDistance
  | Unrecognized (raw : Nat)
  deriving DecidableEq, Repr

/-- Weapon slots with their own swing timer. -/
inductive WeaponAttackType where
  | BASE_ATTACK
  | OFF_ATTACK
  | RANGED_ATTACK
  deriving DecidableEq, Repr

/-- Values of `TypeID` that the selectors distinguish. -/
inductive TypeID where
  | TYPEID_UNIT
  | TYPEID_PLAYER
  | TYPEID_OTHER
  deriving DecidableEq, Repr

/-- Cast verdicts: the two produced in this file, success, and any other code the casting
subsystem reports. -/
inductive SpellCastResult where
  | SPELL_CAST_OK
  | SPELL_FAILED_SPELL_IN_PROGRESS
  | SPELL_FAILED_BAD_TARGETS
  | SPELL_FAILED_OTHER (code : Nat)
  deriving DecidableEq, Repr

/-- Cast options `CastSpellExtraArgs`; only the trigger flag mask is read here. -/
structure CastSpellExtraArgs where
  TriggerFlags : Nat
  deriving DecidableEq, Repr

/-- One entry of the threat list (`ThreatReference`): the threatened unit, the offline mark
and the threat value. -/
structure ThreatReference where
  victim : Unit
  offline : Bool
  threat : Nat
  deriving DecidableEq, Repr

/-- Read interface of the threat subsystem (`ThreatManager`), one field per getter used:
`GetSortedThreatList`, `GetUnsortedThreatList`, `GetThreatListSize`, `GetCurrentVictim`,
`GetLastVictim`. -/
structure ThreatManager where
  sortedThreatList : List ThreatReference
  unsortedThreatList : List ThreatReference
  threatListSize : Nat
  currentVictim : Option Unit
  lastVictim : Option Unit

/-- A call made on the outside world, recorded in program order. -/
inductive Call where
  | AttackerStateUpdate (victim : Option Unit) (attType : WeaponAttackType)
  | resetAttackTimer (attType : WeaponAttackType)
  | CastSpell (target : Option Unit) (spellId : Nat) (args : CastSpellExtraArgs)
  deriving DecidableEq, Repr

/-- The actor `me` with everything the code observes through it.

* `self` is the pointer `me` itself, the identity of the actor;
* `casting` is `HasUnitState(UNIT_STATE_CASTING)`, `victim` is `GetVictim()`;
* `isWithinMeleeRange`, `isWithinCombatRange` are the range queries of `me`;
* `attackTimer` holds the swing timers, a slot is ready when its timer is `0`, and
  `attackTime` is the value `resetAttackTimer` puts back;
* `typeId`, `hasAura` are `GetTypeId()` and `HasAura(id)` of a candidate unit;
* `distanceOrderPred ascending` is the comparator `Trinity::ObjectDistanceOrderPred(me, ascending)`
  and `distance` the distance of a unit to `me`;
* `castResult` is the verdict `CastSpell` gives; `calls` is the call trace. -/
structure Actor where
  self : Unit
  threatManager : ThreatManager
  casting : Bool
  victim : Option Unit
  isWithinMeleeRange : Option Unit → Bool
  isWithinCombatRange : Unit → ℚ → Bool
  attackTimer : WeaponAttackType → Nat
  attackTime : WeaponAttackType → Nat
  haveOffhandWeapon : Bool
  typeId : Unit → TypeID
  hasAura : Unit → Nat → Bool
  distance : Unit → ℚ
  distanceOrderPred : Bool → Unit → Unit → Bool
  castResult : Option Unit → Nat → CastSpellExtraArgs → SpellCastResult
  calls : List Call

/-- Random helpers of `Trinity::Containers`, taken as parameters:
`SelectRandomContainerElement(list)` and `RandomResize(list, size)`. -/
structure Containers where
  SelectRandomContainerElement : List Unit → Unit
  RandomResize : List Unit → Nat → List Unit

/-! ## Standard list operations -/

/-- Insertion step of the stable sort: `x` stood before every element of the sorted list and
moves behind an element `y` only when `comp y x`. -/
def sortInsert (comp : Unit → Unit → Bool) (x : Unit) : List Unit → List Unit
  | [] => [x]
  | y :: ys => if comp y x then y :: sortInsert comp x ys else x :: y :: ys

/-- Model of `std::list::sort(comp)`: a stable sort driven by the comparator only. -/
def listSort (comp : Unit → Unit → Bool) : List Unit → List Unit
  | [] => []
  | x :: xs => sortInsert comp x (listSort comp xs)

/-- The call `list.clear()`. -/
def listClear (_l : List Unit) : List Unit := []

/-- The loop `while (offset) { list.pop_front(); --offset; }`. -/
def popFront : Nat → List Unit → List Unit
  | 0, l => l
  | n + 1, l => popFront n l.tail

/-- Modelled from the spec: `Trinity::ObjectDistanceOrderPred` is declared outside this file;
the spec has the distance methods sort "by actual distance (ascending for min-, descending
for max-)", so the comparator puts the nearer unit first when ascending and the farther
unit first otherwise. -/
def ObjectDistanceOrderPred (distance : Unit → ℚ) (ascending : Bool) (l r : Unit) : Bool :=
  if ascending then decide (distance l < distance r) else decide (distance r < distance l)

/-! ## Target selection engine -/

/-- The loop over the unsorted threat list: every online entry appends its victim. -/
def collectUnsorted (refs : List ThreatReference) (targetList : List Unit) : List Unit :=
  refs.foldl (fun acc ref => if ref.offline then acc else acc ++ [ref.victim]) targetList

/-- The loop over the sorted threat list: every online entry whose victim is not the current
victim appends its victim. -/
def collectSorted (refs : List ThreatReference) (currentVictim : Option Unit)
    (targetList : List Unit) : List Unit :=
  refs.foldl
    (fun acc ref =>
      if ref.offline then acc
      else if some ref.victim ≠ currentVictim then acc ++ [ref.victim] else acc)
    targetList

/-- The candidate list as it stands after the collection branch of
`PrepareTargetListSelection`, before the second size test. -/
def collectCandidates (me : Actor) (targetType : SelectTargetMethod) : List Unit :=
  let mgr := me.threatManager
  if targetType = SelectTargetMethod.MaxDistance ∨ targetType = SelectTargetMethod.MinDistance then
    collectUnsorted mgr.unsortedThreatList []
  else
    let currentVictim := mgr.currentVictim
    let targetList : List Unit :=
      match currentVictim with
      | some cv => [cv]
      | none => []
    collectSorted mgr.sortedThreatList currentVictim targetList

/-- `UnitAI::PrepareTargetListSelection`: the returned pair is the `bool` result and the
content of `targetList` on return; the argument `targetList` is its content on entry. The
collection branch pushes onto the list that was just cleared. -/
def PrepareTargetListSelection (me : Actor) (targetList : List Unit)
    (targetType : SelectTargetMethod) (offset : Nat) : Bool × List Unit :=
  let targetList := listClear targetList
  let mgr := me.threatManager
  if mgr.threatListSize ≤ offset then
    (false, targetList)
  else
    let targetList := targetList ++ collectCandidates me targetType
    if targetList.length ≤ offset then
      (false, listClear targetList)
    else
      let targetList :=
        if targetType = SelectTargetMethod.MaxDistance
            ∨ targetType = SelectTargetMethod.MinDistance then
          listSort
            (me.distanceOrderPred (decide (targetType = SelectTargetMethod.MinDistance)))
            targetList
        else targetList
      let targetList :=
        if targetType = SelectTargetMethod.MinThreat then targetList.reverse else targetList
      (true, popFront offset targetList)

/-- `UnitAI::FinalizeTargetListSelection`: the content of `targetList` on return. Past the
size test the list is longer than `num`, so `resize(num)` keeps its first `num` elements. -/
def FinalizeTargetListSelection (rnd : Containers) (targetList : List Unit) (num : Nat)
    (targetType : SelectTargetMethod) : List Unit :=
  if targetList.length ≤ num then
    targetList
  else if targetType = SelectTargetMethod.Random then
    rnd.RandomResize targetList num
  else
    targetList.take num

/-- `UnitAI::FinalizeTargetSelection`: `none` is the null pointer. -/
def FinalizeTargetSelection (rnd : Containers) (targetList : List Unit)
    (targetType : SelectTargetMethod) : Option Unit :=
  if targetList.isEmpty then
    none
  else
    match targetType with
    | SelectTargetMethod.MaxThreat => targetList.head?
    | SelectTargetMethod.MinThreat => targetList.head?
    | SelectTargetMethod.MaxDistance => targetList.head?
    | SelectTargetMethod.MinDistance => targetList.head?
    | SelectTargetMethod.Random => some (rnd.SelectRandomContainerElement targetList)
    | SelectTargetMethod.Unrecognized _ => none

/-- Modelled from the spec: the select-many template `SelectTargetList(list, num, method,
offset, predicate)` is declared in the header, which is not among the sources. Phase A is
`PrepareTargetListSelection`, which clears the list and receives no predicate, so the
predicate can only act on what it returns; a failed phase A is "no results" with no predicate
applied; otherwise the caller-supplied predicate filters the prepared list and phase B caps
it with `FinalizeTargetListSelection`. -/
def SelectTargetList (rnd : Containers) (me : Actor) (targetList : List Unit) (num : Nat)
    (targetType : SelectTargetMethod) (offset : Nat) (predicate : Option Unit → Bool) :
    List Unit :=
  match PrepareTargetListSelection me targetList targetType offset with
  | (false, prepared) => prepared
  | (true, prepared) =>
    FinalizeTargetListSelection rnd (prepared.filter (fun t => predicate (some t))) num
      targetType

/-- Modelled from the spec: the select-one template `SelectTarget(method, offset, predicate)`
is declared in the header, which is not among the sources. It runs phase A and the predicate
filter like select-many and resolves a single element with `FinalizeTargetSelection`. -/
def SelectTarget (rnd : Containers) (me : Actor) (targetType : SelectTargetMethod)
    (offset : Nat) (predicate : Option Unit → Bool) : Option Unit :=
  match PrepareTargetListSelection me [] targetType offset with
  | (false, prepared) => FinalizeTargetSelection rnd prepared targetType
  | (true, prepared) =>
    FinalizeTargetSelection rnd (prepared.filter (fun t => predicate (some t))) targetType

/-! ## Target predicates -/

/-- State captured by `DefaultTargetSelector`: the actor reference (nullable), the signed
distance, the player-only switch, the excepted unit (nullable) and the signed aura id. -/
structure DefaultTargetSelector where
  _me : Option Actor
  _dist : ℚ
  _playerOnly : Bool
  _exception : Option Unit
  _aura : Int

/-- Constructor `DefaultTargetSelector(unit, dist, playerOnly, withTank, aura)`. With
`withTank = false` the initialiser reads the last victim through `unit`; `none` is the
fault of reading through a null `unit`. -/
def DefaultTargetSelector.new (unit : Option Actor) (dist : ℚ) (playerOnly : Bool)
    (withTank : Bool) (aura : Int) : Option DefaultTargetSelector :=
  if !withTank then
    match unit with
    | none => none
    | some u =>
      some
        { _me := unit, _dist := dist, _playerOnly := playerOnly,
          _exception := u.threatManager.lastVictim, _aura := aura }
  else
    some { _me := unit, _dist := dist, _playerOnly := playerOnly, _exception := none, _aura := aura }

/-- `DefaultTargetSelector::operator()`; the argument is the nullable `target`. -/
def DefaultTargetSelector.call (s : DefaultTargetSelector) (target : Option Unit) : Bool :=
  match s._me with
  | none => false
  | some me =>
    match target with
    | none => false
    | some t =>
      if s._exception.isSome ∧ target = s._exception then false
      else if s._playerOnly = true ∧ me.typeId t ≠ TypeID.TYPEID_PLAYER then false
      else if s._dist > 0 ∧ me.isWithinCombatRange t s._dist = false then false
      else if s._dist < 0 ∧ me.isWithinCombatRange t (-s._dist) = true then false
      else if s._aura ≠ 0 then
        if s._aura > 0 then
          if me.hasAura t s._aura.toNat = false then false else true
        else
          if me.hasAura t (-s._aura).toNat = true then false else true
      else true

/-! ## Action dispatcher -/

/-- The call `me->CastSpell(target, spellId, args)`: the verdict of the casting subsystem,
and the call recorded. -/
def Actor.CastSpell (me : Actor) (target : Option Unit) (spellId : Nat)
    (args : CastSpellExtraArgs) : SpellCastResult × Actor :=
  (me.castResult target spellId args,
    { me with calls := me.calls ++ [Call.CastSpell target spellId args] })

/-- The call `me->AttackerStateUpdate(victim, attType)`, recorded. -/
def Actor.AttackerStateUpdate (me : Actor) (victim : Option Unit)
    (attType : WeaponAttackType) : Actor :=
  { me with calls := me.calls ++ [Call.AttackerStateUpdate victim attType] }

/-- Modelled from the spec: `isAttackReady(attType)` is declared outside this file; a slot
is ready when its swing timer has elapsed. -/
def Actor.isAttackReady (me : Actor) (attType : WeaponAttackType) : Bool :=
  me.attackTimer attType == 0

/-- Modelled from the spec: `resetAttackTimer(attType)` is declared outside this file; it
resets the timer of that slot only, and the call is recorded. -/
def Actor.resetAttackTimer (me : Actor) (attType : WeaponAttackType) : Actor :=
  { me with
    attackTimer := fun a => if a = attType then me.attackTime attType else me.attackTimer a
    calls := me.calls ++ [Call.resetAttackTimer attType] }

/-- `UnitAI::DoMeleeAttackIfReady`: the actor after the call. -/
def DoMeleeAttackIfReady (me : Actor) : Actor :=
  if me.casting = true then
    me
  else
    let victim := me.victim
    if me.isWithinMeleeRange victim = false then
      me
    else
      let me :=
        if me.isAttackReady WeaponAttackType.BASE_ATTACK = true then
          (me.AttackerStateUpdate victim WeaponAttackType.BASE_ATTACK).resetAttackTimer
            WeaponAttackType.BASE_ATTACK
        else me
      if me.haveOffhandWeapon = true ∧ me.isAttackReady WeaponAttackType.OFF_ATTACK = true then
        (me.AttackerStateUpdate victim WeaponAttackType.OFF_ATTACK).resetAttackTimer
          WeaponAttackType.OFF_ATTACK
      else me

/-- `UnitAI::DoCast(Unit* victim, uint32 spellId, CastSpellExtraArgs const& args)`: the
verdict and the actor after the call. The flag constant `TRIGGERED_IGNORE_CAST_IN_PROGRESS`
is declared outside this file and is a parameter. -/
def DoCast (TRIGGERED_IGNORE_CAST_IN_PROGRESS : Nat) (me : Actor) (victim : Option Unit)
    (spellId : Nat) (args : CastSpellExtraArgs) : SpellCastResult × Actor :=
  if me.casting = true ∧ ¬ (args.TriggerFlags &&& TRIGGERED_IGNORE_CAST_IN_PROGRESS ≠ 0) then
    (SpellCastResult.SPELL_FAILED_SPELL_IN_PROGRESS, me)
  else
    me.CastSpell victim spellId args

/-! ## Spell static data and classification cache -/

/-- Implicit target shapes (`Targets`) that the classification distinguishes; `TARGET_OTHER`
stands for every other value. -/
inductive Targets where
  | TARGET_UNIT_TARGET_ENEMY
  | TARGET_DEST_TARGET_ENEMY
  | TARGET_UNIT_DEST_AREA_ENEMY
  | TARGET_OTHER (raw : Nat)
  deriving DecidableEq, Repr

/-- Effect types (`SpellEffects`) that the classification distinguishes. -/
inductive SpellEffects where
  | SPELL_EFFECT_APPLY_AURA
  | SPELL_EFFECT_OTHER (raw : Nat)
  deriving DecidableEq, Repr

/-- One effect of a spell: `Effect` and `TargetA.GetTarget()`. -/
structure SpellEffectInfo where
  Effect : SpellEffects
  TargetA : Targets
  deriving DecidableEq, Repr

/-- What the code reads of a spell descriptor (`SpellInfo`):
`HasAttribute(SPELL_ATTR0_CASTABLE_WHILE_DEAD)`, `HasAttribute(SPELL_ATTR3_ONLY_TARGET_PLAYERS)`,
`IsPassive()`, `GetDuration()`, `RecoveryTime`, `StartRecoveryTime`, `GetMaxRange(positive)`,
`GetEffects()`, `IsPositive()` and `AuraInterruptFlags`. -/
structure SpellInfo where
  castableWhileDead : Bool
  onlyTargetPlayers : Bool
  IsPassive : Bool
  GetDuration : Int
  RecoveryTime : Nat
  StartRecoveryTime : Nat
  GetMaxRange : Bool → ℚ
  GetEffects : List SpellEffectInfo
  IsPositive : Bool
  AuraInterruptFlags : Nat

/-- The static spell table `sSpellMgr`: `GetSpellInfoStoreSize()` and `GetSpellInfo(id)`,
`none` being the null descriptor. -/
structure SpellMgr where
  GetSpellInfoStoreSize : Nat
  GetSpellInfo : Nat → Option SpellInfo

/-- Modelled from the spec: the enumeration `AITarget` is declared in the header, which is
not among the sources; the spec lists the target categories in the order self,
current-victim, best-enemy, ally, apply-buff, apply-debuff. -/
inductive AITarget where
  | AITARGET_SELF
  | AITARGET_VICTIM
  | AITARGET_ENEMY
  | AITARGET_ALLY
  | AITARGET_BUFF
  | AITARGET_DEBUFF
  deriving DecidableEq, Repr

/-- Position of a target category in the enumeration, the value `<` compares. -/
def AITarget.rank : AITarget → Nat
  | AITarget.AITARGET_SELF => 0
  | AITarget.AITARGET_VICTIM => 1
  | AITarget.AITARGET_ENEMY => 2
  | AITarget.AITARGET_ALLY => 3
  | AITarget.AITARGET_BUFF => 4
  | AITarget.AITARGET_DEBUFF => 5

/-- Cast condition categories (`AICondition`). -/
inductive AICondition where
  | AICOND_AGGRO
  | AICOND_COMBAT
  | AICOND_DIE
  deriving DecidableEq, Repr

/-- One entry of the classification cache (`AISpellInfoType`). -/
structure AISpellInfoType where
  target : AITarget
  condition : AICondition
  cooldown : Nat
  realCooldown : Nat
  maxRange : ℚ
  deriving DecidableEq

/-- The macro `UPDATE_TARGET(a)`: `{if (AIInfo->target<a) AIInfo->target=a;}`. -/
def UPDATE_TARGET (AIInfo : AISpellInfoType) (a : AITarget) : AISpellInfoType :=
  if AIInfo.target.rank < a.rank then { AIInfo with target := a } else AIInfo

/-- Body of the loop over the effects of a spell in `FillAISpellInfo`. -/
def scanEffect (spellInfo : SpellInfo) (AIInfo : AISpellInfoType) (effect : SpellEffectInfo) :
    AISpellInfoType :=
  let targetType := effect.TargetA
  let AIInfo :=
    if targetType = Targets.TARGET_UNIT_TARGET_ENEMY
        ∨ targetType = Targets.TARGET_DEST_TARGET_ENEMY then
      UPDATE_TARGET AIInfo AITarget.AITARGET_VICTIM
    else if targetType = Targets.TARGET_UNIT_DEST_AREA_ENEMY then
      UPDATE_TARGET AIInfo AITarget.AITARGET_ENEMY
    else AIInfo
  if effect.Effect = SpellEffects.SPELL_EFFECT_APPLY_AURA then
    if targetType = Targets.TARGET_UNIT_TARGET_ENEMY then
      UPDATE_TARGET AIInfo AITarget.AITARGET_DEBUFF
    else if spellInfo.IsPositive = true then
      UPDATE_TARGET AIInfo AITarget.AITARGET_BUFF
    else AIInfo
  else AIInfo

/-- Body of the loop of `FillAISpellInfo` for a present spell: `AIInfo` is the entry as it
stands, the result is the entry after the iteration. The sum of the two `uint32` recovery
times is taken modulo `2 ^ 32`. -/
def fillEntry (spellInfo : SpellInfo) (AIInfo : AISpellInfoType) : AISpellInfoType :=
  let AIInfo : AISpellInfoType :=
    if spellInfo.castableWhileDead = true then
      { AIInfo with condition := AICondition.AICOND_DIE }
    else if spellInfo.IsPassive = true ∨ spellInfo.GetDuration = -1 then
      { AIInfo with condition := AICondition.AICOND_AGGRO }
    else
      { AIInfo with condition := AICondition.AICOND_COMBAT }
  let AIInfo : AISpellInfoType :=
    if AIInfo.cooldown < spellInfo.RecoveryTime then
      { AIInfo with cooldown := spellInfo.RecoveryTime }
    else AIInfo
  let AIInfo : AISpellInfoType :=
    if spellInfo.GetMaxRange false ≠ 0 then
      spellInfo.GetEffects.foldl (scanEffect spellInfo) AIInfo
    else AIInfo
  { AIInfo with
    realCooldown := (spellInfo.RecoveryTime + spellInfo.StartRecoveryTime) % 2 ^ 32
    maxRange := spellInfo.GetMaxRange false * 3 / 4 }

/-- One iteration of the loop of `FillAISpellInfo` at index `i`: an absent spell is skipped,
a present one rewrites the entry at `i`. -/
def fillStep (mgr : SpellMgr) (table : List AISpellInfoType) (i : Nat) :
    List AISpellInfoType :=
  match mgr.GetSpellInfo i with
  | none => table
  | some spellInfo =>
    match table[i]? with
    | none => table
    | some AISpellInfo => table.set i (fillEntry spellInfo AISpellInfo)

/-- `UnitAI::FillAISpellInfo`: the array `AISpellInfo` it builds. `defaultEntry` is the entry
the default constructor of `AISpellInfoType` makes; the constructor is declared in the
header and is a parameter. -/
def FillAISpellInfo (defaultEntry : AISpellInfoType) (mgr : SpellMgr) : List AISpellInfoType :=
  (List.range mgr.GetSpellInfoStoreSize).foldl (fillStep mgr)
    (List.replicate mgr.GetSpellInfoStoreSize defaultEntry)

/-- `UnitAI::DoGetSpellMaxRange`. -/
def DoGetSpellMaxRange (mgr : SpellMgr) (spellId : Nat) (positive : Bool) : ℚ :=
  match mgr.GetSpellInfo spellId with
  | some spellInfo => spellInfo.GetMaxRange positive
  | none => 0

/-! ## Casting by spell id and spell attack -/

/-- Constants and default arguments that are declared outside this file of the repository,
taken as parameters: the flag `AURA_INTERRUPT_FLAG_NOT_VICTIM`, the defaults of the
parameters `withTank` and `aura` of `SelectTarget`, and the cast options that the literal
`false` converts to. -/
structure Declared where
  AURA_INTERRUPT_FLAG_NOT_VICTIM : Nat
  defaultWithTank : Bool
  defaultAura : Int
  castArgsFalse : CastSpellExtraArgs

/-- The conversion `(int32)spellId` of a `uint32`. -/
def toInt32 (n : Nat) : Int :=
  if n % 2 ^ 32 < 2 ^ 31 then ((n % 2 ^ 32 : Nat) : Int) else ((n % 2 ^ 32 : Nat) : Int) - 2 ^ 32

/-- Modelled from the spec: `IsWithinCombatRange(obj, dist)` is declared outside this file;
an absent unit is within no range, a present one is asked through the range query. -/
def Actor.IsWithinCombatRange (me : Actor) (obj : Option Unit) (dist : ℚ) : Bool :=
  match obj with
  | none => false
  | some u => me.isWithinCombatRange u dist

/-- `UnitAI::SelectTarget(targetType, position, dist, playerOnly, withTank, aura)`: select-one
with the default selector built over `me`, which is not null. -/
def SelectTargetDefault (rnd : Containers) (me : Actor) (targetType : SelectTargetMethod)
    (position : Nat) (dist : ℚ) (playerOnly : Bool) (withTank : Bool) (aura : Int) :
    Option Unit :=
  match DefaultTargetSelector.new (some me) dist playerOnly withTank aura with
  | some selector => SelectTarget rnd me targetType position selector.call
  | none => none

/-- `UnitAI::DoCast(uint32 spellId)`: the verdict and the actor after the call; `none` is a
read of `AISpellInfo[spellId]` outside the array. The `default` label of the switch shares
the branch of `AITARGET_SELF`. -/
def DoCastSpellId (rnd : Containers) (decl : Declared) (mgr : SpellMgr)
    (AISpellInfo : List AISpellInfoType) (me : Actor) (spellId : Nat) :
    Option (SpellCastResult × Actor) :=
  match AISpellInfo[spellId]? with
  | none => none
  | some info =>
    let target : Option Unit :=
      match info.target with
      | AITarget.AITARGET_SELF => some me.self
      | AITarget.AITARGET_VICTIM => me.victim
      | AITarget.AITARGET_ENEMY =>
        match mgr.GetSpellInfo spellId with
        | some spellInfo =>
          let playerOnly := spellInfo.onlyTargetPlayers
          SelectTargetDefault rnd me SelectTargetMethod.Random 0 (spellInfo.GetMaxRange false)
            playerOnly decl.defaultWithTank decl.defaultAura
        | none => none
      | AITarget.AITARGET_ALLY => some me.self
      | AITarget.AITARGET_BUFF => some me.self
      | AITarget.AITARGET_DEBUFF =>
        match mgr.GetSpellInfo spellId with
        | some spellInfo =>
          let playerOnly := spellInfo.onlyTargetPlayers
          let range := spellInfo.GetMaxRange false
          match DefaultTargetSelector.new (some me) range playerOnly true (-(toInt32 spellId)) with
          | some targetSelector =>
            if ¬ (spellInfo.AuraInterruptFlags &&& decl.AURA_INTERRUPT_FLAG_NOT_VICTIM ≠ 0)
                ∧ targetSelector.call me.victim = true then
              me.victim
            else
              SelectTarget rnd me SelectTargetMethod.Random 0 targetSelector.call
          | none => none
        | none => none
    match target with
    | some t => some (me.CastSpell (some t) spellId decl.castArgsFalse)
    | none => some (SpellCastResult.SPELL_FAILED_BAD_TARGETS, me)

/-- `UnitAI::DoSpellAttackIfReady`: the `bool` result and the actor after the call. -/
def DoSpellAttackIfReady (decl : Declared) (mgr : SpellMgr) (me : Actor) (spell : Nat) :
    Bool × Actor :=
  if me.casting = true ∨ me.isAttackReady WeaponAttackType.BASE_ATTACK = false then
    (true, me)
  else
    match mgr.GetSpellInfo spell with
    | some spellInfo =>
      if me.IsWithinCombatRange me.victim (spellInfo.GetMaxRange false) = true then
        (true,
          (me.CastSpell me.victim spell decl.castArgsFalse).2.resetAttackTimer
            WeaponAttackType.BASE_ATTACK)
      else (false, me)
    | none => (false, me)

/-! ## Single-precision floats -/

/-- A value of the C++ type `float` (IEEE 754 binary32): the finite value `mant * 2 ^ exp`,
an infinity, or a NaN. The two zeros are one value, which comparisons do not distinguish. -/
inductive F32 where
  | finite (mant : Int) (exp : Int)
  | inf (negative : Bool)
  | nan
  deriving DecidableEq, Repr

/-- Number of binary digits of `n`, with `fuel` bounding the recursion. -/
def bitLengthAux : Nat → Nat → Nat
  | 0, _ => 0
  | fuel + 1, n => if n = 0 then 0 else bitLengthAux fuel (n / 2) + 1

/-- Number of binary digits of `n`: `2 ^ (bitLength n - 1) ≤ n < 2 ^ bitLength n` for
`n > 0`. -/
def bitLength (n : Nat) : Nat := bitLengthAux n n

/-- The integer nearest to `a / 2 ^ shift`, a tie going to the even one. -/
def roundHalfEven (a shift : Nat) : Nat :=
  let d := a / 2 ^ shift
  let r := a % 2 ^ shift
  if 2 * r < 2 ^ shift then d
  else if 2 ^ shift < 2 * r then d + 1
  else if d % 2 = 0 then d else d + 1

/-- The integer `m * 2 ^ k`. -/
def shiftLeft (m : Int) (k : Nat) : Int := m * ((2 ^ k : Nat) : Int)

/-- Rounding of the exact value `mant * 2 ^ exp` to binary32, to nearest with ties to even:
the result keeps 24 significant bits, or the bits above `2 ^ (-149)` in the subnormal range,
and a magnitude that reaches `2 ^ 128` becomes an infinity. -/
def F32.round (mant exp : Int) : F32 :=
  if mant = 0 then F32.finite 0 0
  else
    let a := mant.natAbs
    let top : Int := exp + (bitLength a : Int) - 1
    let q : Int := max (top - 23) (-149)
    let n : Nat :=
      if q ≤ exp then a * 2 ^ (exp - q).toNat else roundHalfEven a (q - exp).toNat
    if 104 < q ∨ (q = 104 ∧ 2 ^ 24 ≤ n) then F32.inf (decide (mant < 0))
    else if mant < 0 then F32.finite (-(n : Int)) q
    else F32.finite (n : Int) q

/-- The `float` sum `a + b`. -/
def F32.add : F32 → F32 → F32
  | F32.finite m1 e1, F32.finite m2 e2 =>
    let e := min e1 e2
    F32.round (shiftLeft m1 (e1 - e).toNat + shiftLeft m2 (e2 - e).toNat) e
  | F32.finite _ _, F32.inf n => F32.inf n
  | F32.inf n, F32.finite _ _ => F32.inf n
  | F32.inf n1, F32.inf n2 => if n1 = n2 then F32.inf n1 else F32.nan
  | F32.nan, _ => F32.nan
  | _, F32.nan => F32.nan

/-- The `float` product `a * b`. -/
def F32.mul : F32 → F32 → F32
  | F32.finite m1 e1, F32.finite m2 e2 => F32.round (m1 * m2) (e1 + e2)
  | F32.finite m _, F32.inf n => if m = 0 then F32.nan else F32.inf (n != decide (m < 0))
  | F32.inf n, F32.finite m _ => if m = 0 then F32.nan else F32.inf (n != decide (m < 0))
  | F32.inf n1, F32.inf n2 => F32.inf (n1 != n2)
  | F32.nan, _ => F32.nan
  | _, F32.nan => F32.nan

/-- The `float` quotient `a / b`. For finite operands the quotient of the mantissas is taken
with at least 26 significant bits and one more bit that records a non-zero remainder, which
rounds like the exact quotient. -/
def F32.div : F32 → F32 → F32
  | F32.finite m1 e1, F32.finite m2 e2 =>
    if m2 = 0 then
      if m1 = 0 then F32.nan else F32.inf (decide (m1 < 0))
    else
      let k := 26 + bitLength m2.natAbs
      let p := m1.natAbs * 2 ^ k
      let t := p / m2.natAbs
      let sticky : Nat := if p % m2.natAbs = 0 then 0 else 1
      let magnitude : Int := ((2 * t + sticky : Nat) : Int)
      F32.round (if decide (m1 < 0) != decide (m2 < 0) then -magnitude else magnitude)
        (e1 - e2 - (k : Int) - 1)
  | F32.finite _ _, F32.inf _ => F32.finite 0 0
  | F32.inf n, F32.finite m _ => F32.inf (n != decide (m < 0))
  | F32.inf _, F32.inf _ => F32.nan
  | F32.nan, _ => F32.nan
  | _, F32.nan => F32.nan

/-- The `float` comparison `a < b`; every comparison with a NaN is false. -/
def F32.lt : F32 → F32 → Bool
  | F32.finite m1 e1, F32.finite m2 e2 =>
    let e := min e1 e2
    decide (shiftLeft m1 (e1 - e).toNat < shiftLeft m2 (e2 - e).toNat)
  | F32.finite _ _, F32.inf n => !n
  | F32.inf n, F32.finite _ _ => n
  | F32.inf n1, F32.inf n2 => n1 && !n2
  | F32.nan, _ => false
  | _, F32.nan => false

/-- The call `std::max(a, b)`: `b` when `a < b`, else `a`. -/
def F32.max (a b : F32) : F32 := if F32.lt a b = true then b else a

/-- The `float` literal of a natural number that binary32 holds exactly, such as `4.0f`. -/
def F32.lit (n : Nat) : F32 := F32.finite (n : Int) 0

/-- Whether a value is one that the type `float` holds: an infinity, a NaN, or a finite
value that rounding leaves unchanged. -/
def F32.isFloat : F32 → Bool
  | F32.finite m e =>
    !(F32.lt (F32.round m e) (F32.finite m e)) && !(F32.lt (F32.finite m e) (F32.round m e))
  | F32.inf _ => true
  | F32.nan => true

/-- The exact value of a finite `float` as a rational number. -/
def F32.toRat : F32 → Option ℚ
  | F32.finite m e => some ((m : ℚ) * (2 : ℚ) ^ e)
  | F32.inf _ => none
  | F32.nan => none

/-! ## Spell-legality selector -/

/-- State captured by `SpellTargetSelector` with everything `operator()` observes through it:
`_caster` is the caster pointer, `RangeEntryFlags` is `_spellInfo->RangeEntry->Flags` (`none`
for a null `RangeEntry`), `CheckTarget` is `_spellInfo->CheckTarget(_caster, target)`,
`GetCombatReach`, `isMoving`, `IsWalking`, `GetTypeId` are read of the caster or the target,
`GetSpellMinRangeForTarget`, `GetSpellMaxRangeForTarget` and `GetExactDistSq` are the queries
of the caster about a target. Every `float` is an `F32`. -/
structure SpellTargetSelector where
  _caster : Unit
  RangeEntryFlags : Option Nat
  CheckTarget : Unit → SpellCastResult
  GetCombatReach : Unit → F32
  isMoving : Unit → Bool
  IsWalking : Unit → Bool
  GetTypeId : Unit → TypeID
  GetSpellMinRangeForTarget : Unit → F32
  GetSpellMaxRangeForTarget : Unit → F32
  GetExactDistSq : Unit → F32

/-- Constants of the range check that are declared outside this file, taken as parameters. -/
structure RangeConstants where
  NOMINAL_MELEE_RANGE : F32
  SPELL_RANGE_MELEE : Nat
  SPELL_RANGE_RANGED : Nat

/-- The values of `minRange`, `maxRange` and `rangeMod` in `SpellTargetSelector::operator()`
when the statement `maxRange += rangeMod` is reached, every operation rounding to `float`. -/
def SpellTargetSelector.ranges (c : RangeConstants) (s : SpellTargetSelector) (target : Unit) :
    F32 × F32 × F32 :=
  let minRange : F32 := F32.lit 0
  let maxRange : F32 := F32.lit 0
  let rangeMod : F32 := F32.lit 0
  match s.RangeEntryFlags with
  | none => (minRange, maxRange, rangeMod)
  | some Flags =>
    let r : F32 × F32 × F32 :=
      if Flags &&& c.SPELL_RANGE_MELEE ≠ 0 then
        let rangeMod := F32.add (s.GetCombatReach s._caster) (F32.div (F32.lit 4) (F32.lit 3))
        let rangeMod := F32.add rangeMod (s.GetCombatReach target)
        let rangeMod := F32.max rangeMod c.NOMINAL_MELEE_RANGE
        (minRange, maxRange, rangeMod)
      else
        let meleeRange : F32 := F32.lit 0
        let meleeRange : F32 :=
          if Flags &&& c.SPELL_RANGE_RANGED ≠ 0 then
            let meleeRange :=
              F32.add (s.GetCombatReach s._caster) (F32.div (F32.lit 4) (F32.lit 3))
            let meleeRange := F32.add meleeRange (s.GetCombatReach target)
            F32.max meleeRange c.NOMINAL_MELEE_RANGE
          else meleeRange
        let minRange := F32.add (s.GetSpellMinRangeForTarget target) meleeRange
        let maxRange := s.GetSpellMaxRangeForTarget target
        let rangeMod := s.GetCombatReach s._caster
        let rangeMod := F32.add rangeMod (s.GetCombatReach target)
        let minRange :=
          if F32.lt (F32.lit 0) minRange = true ∧ ¬ (Flags &&& c.SPELL_RANGE_RANGED ≠ 0) then
            F32.add minRange rangeMod
          else minRange
        (minRange, maxRange, rangeMod)
    if s.isMoving s._caster = true ∧ s.isMoving target = true
        ∧ s.IsWalking s._caster = false ∧ s.IsWalking target = false
        ∧ (Flags &&& c.SPELL_RANGE_MELEE ≠ 0 ∨ s.GetTypeId target = TypeID.TYPEID_PLAYER) then
      (r.1, r.2.1, F32.add r.2.2 (F32.div (F32.lit 8) (F32.lit 3)))
    else r

/-- `SpellTargetSelector::operator()`; the argument is the nullable `target`. -/
def SpellTargetSelector.call (c : RangeConstants) (s : SpellTargetSelector)
    (target : Option Unit) : Bool :=
  match target with
  | none => false
  | some t =>
    if s.CheckTarget t ≠ SpellCastResult.SPELL_CAST_OK then false
    else
      let r := s.ranges c t
      let minRange := r.1
      let maxRange := F32.add r.2.1 r.2.2
      let minRange := F32.mul minRange minRange
      let maxRange := F32.mul maxRange maxRange
      if t ≠ s._caster then
        if F32.lt maxRange (s.GetExactDistSq t) = true then false
        else if F32.lt (F32.lit 0) minRange = true
            ∧ F32.lt (s.GetExactDistSq t) minRange = true then false
        else true
      else true

/-! ## Scenario of the specification -/

/-- An actor that observes nothing: empty threat list, no victim, all timers ready. -/
def idleActor : Actor where
  self := 0
  threatManager :=
    { sortedThreatList := [], unsortedThreatList := [], threatListSize := 0,
      currentVictim := none, lastVictim := none }
  casting := false
  victim := none
  isWithinMeleeRange := fun _ => false
  isWithinCombatRange := fun _ _ => false
  attackTimer := fun _ => 0
  attackTime := fun _ => 2000
  haveOffhandWeapon := false
  typeId := fun _ => TypeID.TYPEID_UNIT
  hasAura := fun _ _ => false
  distance := fun _ => 0
  distanceOrderPred := ObjectDistanceOrderPred (fun _ => 0)
  castResult := fun _ _ _ => SpellCastResult.SPELL_CAST_OK
  calls := []

/-- Unit `A` of the scenario. -/
def unitA : Unit := 1

/-- Unit `B` of the scenario. -/
def unitB : Unit := 2

/-- Unit `C` of the scenario. -/
def unitC : Unit := 3

/-- Threat entries `A: 100, B: 80, C: 50`, all online, in descending threat order. -/
def scenarioThreatList : List ThreatReference :=
  [⟨unitA, false, 100⟩, ⟨unitB, false, 80⟩, ⟨unitC, false, 50⟩]

/-- The scenario of the specification: threat entries `A: 100, B: 80, C: 50` and current
victim `B`; the unsorted view iterates `C, A, B`, at distances `A: 30, B: 10, C: 20`. -/
def scenarioActor : Actor :=
  { idleActor with
    threatManager :=
      { sortedThreatList := scenarioThreatList
        unsortedThreatList := [⟨unitC, false, 50⟩, ⟨unitA, false, 100⟩, ⟨unitB, false, 80⟩]
        threatListSize := 3
        currentVictim := some unitB
        lastVictim := some unitA }
    victim := some unitB
    distance := fun u => if u = unitA then 30 else if u = unitB then 10 else 20
    distanceOrderPred :=
      ObjectDistanceOrderPred (fun u => if u = unitA then 30 else if u = unitB then 10 else 20) }

/-- Random helpers that pick from the front. -/
def frontContainers : Containers where
  SelectRandomContainerElement := fun l => l.headD 0
  RandomResize := fun l n => l.take n

/-- Random helpers that pick from the back. -/
def backContainers : Containers where
  SelectRandomContainerElement := fun l => l.getLastD 0
  RandomResize := fun l n => (l.reverse.take n).reverse

/-- The constants and defaults used in the examples: flag bit `8`, `withTank = true`,
`aura = 0`, untriggered cast options. -/
def scenarioDeclared : Declared where
  AURA_INTERRUPT_FLAG_NOT_VICTIM := 8
  defaultWithTank := true
  defaultAura := 0
  castArgsFalse := ⟨0⟩

/-- The default entry used in the examples: category self and cooldown 5000. -/
def scenarioDefaultEntry : AISpellInfoType where
  target := AITarget.AITARGET_SELF
  condition := AICondition.AICOND_COMBAT
  cooldown := 5000
  realCooldown := 0
  maxRange := 0

/-- A spell with range 40, recovery times 8000 and 1500, no effect and no flag. -/
def plainSpell : SpellInfo where
  castableWhileDead := false
  onlyTargetPlayers := false
  IsPassive := false
  GetDuration := 30000
  RecoveryTime := 8000
  StartRecoveryTime := 1500
  GetMaxRange := fun _ => 40
  GetEffects := []
  IsPositive := false
  AuraInterruptFlags := 0

/-- A positive spell whose only effect applies an aura on the enemy area by destination. -/
def positiveAreaAura : SpellInfo :=
  { plainSpell with
    IsPositive := true
    GetEffects :=
      [⟨SpellEffects.SPELL_EFFECT_APPLY_AURA, Targets.TARGET_UNIT_DEST_AREA_ENEMY⟩] }

/-- A spell that applies an aura on the single enemy unit, then damages the enemy area. -/
def debuffSpell : SpellInfo :=
  { plainSpell with
    GetEffects :=
      [⟨SpellEffects.SPELL_EFFECT_APPLY_AURA, Targets.TARGET_UNIT_TARGET_ENEMY⟩,
        ⟨SpellEffects.SPELL_EFFECT_OTHER 2, Targets.TARGET_UNIT_DEST_AREA_ENEMY⟩] }

/-- The debuff spell carrying `AURA_INTERRUPT_FLAG_NOT_VICTIM` (bit `8`). -/
def debuffSpellNotVictim : SpellInfo :=
  { debuffSpell with AuraInterruptFlags := 8 }

/-- The debuff spell with max range 0. -/
def debuffSpellNoRange : SpellInfo :=
  { debuffSpell with GetMaxRange := fun _ => 0 }

/-- A static spell table of capacity 6: id 1 is the plain spell, id 2 the debuff spell, id 3
the debuff spell flagged not-victim, id 4 the positive area aura, id 5 the debuff spell with
max range 0; id 0 is absent. -/
def scenarioSpellMgr : SpellMgr where
  GetSpellInfoStoreSize := 6
  GetSpellInfo := fun id =>
    if id = 1 then some plainSpell
    else if id = 2 then some debuffSpell
    else if id = 3 then some debuffSpellNotVictim
    else if id = 4 then some positiveAreaAura
    else if id = 5 then some debuffSpellNoRange
    else none

/-- The scenario actor with every unit within every combat range. -/
def scenarioActorInRange : Actor :=
  { scenarioActor with isWithinCombatRange := fun _ _ => true }

/-- Range constants of the examples: nominal melee range `5.0f`, melee flag bit 1, ranged
flag bit 2. -/
def scenarioRangeConstants : RangeConstants where
  NOMINAL_MELEE_RANGE := F32.lit 5
  SPELL_RANGE_MELEE := 1
  SPELL_RANGE_RANGED := 2

/-- A melee-flagged spell cast by unit 0 with combat reach `1.5f` on targets of combat reach
`1.0f`; nobody moves; unit `A` is at squared distance `25.0f`, every other unit at squared
distance `25 + 2 ^ (-19)`, the next `float` above 25. -/
def scenarioMeleeSelector : SpellTargetSelector where
  _caster := 0
  RangeEntryFlags := some 1
  CheckTarget := fun _ => SpellCastResult.SPELL_CAST_OK
  GetCombatReach := fun u => if u = 0 then F32.finite 3 (-1) else F32.lit 1
  isMoving := fun _ => false
  IsWalking := fun _ => false
  GetTypeId := fun _ => TypeID.TYPEID_UNIT
  GetSpellMinRangeForTarget := fun _ => F32.lit 0
  GetSpellMaxRangeForTarget := fun _ => F32.lit 0
  GetExactDistSq := fun u => if u = unitA then F32.lit 25 else F32.finite 13107201 (-19)

/-- The same spell with caster reach `3.0f` and target reach `2.0f`; unit `A` is at squared
distance `1314361 / 32768`, every other unit at the next `float` above it. -/
def longReachMeleeSelector : SpellTargetSelector :=
  { scenarioMeleeSelector with
    GetCombatReach := fun u => if u = 0 then F32.lit 3 else F32.lit 2
    GetExactDistSq := fun u =>
      if u = unitA then F32.finite 1314361 (-15) else F32.finite 10514889 (-18) }

/-! ## Specification-side descriptions -/

/-- Victims of the online entries of a threat list, in list order. -/
def onlineVictims (refs : List ThreatReference) : List Unit :=
  (refs.filter (fun ref => !ref.offline)).map (fun ref => ref.victim)

/-- The current victim (if any), followed by the victims of the online entries of the
descending-threat list other than the current victim. -/
def victimFirstList (mgr : ThreatManager) : List Unit :=
  mgr.currentVictim.toList
    ++ (onlineVictims mgr.sortedThreatList).filter (fun t => decide (some t ≠ mgr.currentVictim))

/-- The candidates in the order of the selection method, before any offset is skipped: the
collected list, sorted by the distance comparator for the distance methods, reversed for
MinThreat. -/
def orderedCandidates (me : Actor) (targetType : SelectTargetMethod) : List Unit :=
  let sorted :=
    if targetType = SelectTargetMethod.MaxDistance
        ∨ targetType = SelectTargetMethod.MinDistance then
      listSort (me.distanceOrderPred (decide (targetType = SelectTargetMethod.MinDistance)))
        (collectCandidates me targetType)
    else collectCandidates me targetType
  if targetType = SelectTargetMethod.MinThreat then sorted.reverse else sorted

/-- The greater of two target categories in the order of the enumeration. -/
def maxCategory (a b : AITarget) : AITarget :=
  if a.rank < b.rank then b else a

/-- The category one effect contributes taken on its own: the category the scan of that
single effect reaches from the lowest category. -/
def effectCategory (spellInfo : SpellInfo) (effect : SpellEffectInfo) : AITarget :=
  (scanEffect spellInfo
    { target := AITarget.AITARGET_SELF, condition := AICondition.AICOND_COMBAT,
      cooldown := 0, realCooldown := 0, maxRange := 0 }
    effect).target

/-- The entry at index `i` as a function of the descriptor of spell `i` alone: the default
entry for an absent spell, the loop body applied to the default entry for a present one. -/
def entryOf (mgr : SpellMgr) (i : Nat) (defaultEntry : AISpellInfoType) : AISpellInfoType :=
  match mgr.GetSpellInfo i with
  | none => defaultEntry
  | some spellInfo => fillEntry spellInfo defaultEntry

/-- The debuff predicate of `DoCast(spellId)`: the default selector over `me` with the max
range of the spell, its player-only attribute, no excepted unit (`withTank = true`) and the
aura key `-(int32)spellId`. -/
def debuffSelector (me : Actor) (spellInfo : SpellInfo) (spellId : Nat) :
    DefaultTargetSelector where
  _me := some me
  _dist := spellInfo.GetMaxRange false
  _playerOnly := spellInfo.onlyTargetPlayers
  _exception := none
  _aura := -(toInt32 spellId)

/-- The value of `rangeMod` for a melee-flagged range without the moving bonus: the `float`
sum of the caster reach, `4.0f / 3.0f` and the target reach, in that order, floored at the
nominal melee range by `std::max`. -/
def meleeRangeMod (c : RangeConstants) (s : SpellTargetSelector) (target : Unit) : F32 :=
  F32.max
    (F32.add (F32.add (s.GetCombatReach s._caster) (F32.div (F32.lit 4) (F32.lit 3)))
      (s.GetCombatReach target))
    c.NOMINAL_MELEE_RANGE

/-- The squared maximum range for a melee-flagged range without the moving bonus: the
`float` square of `0.0f + rangeMod`. -/
def meleeMaxRangeSq (c : RangeConstants) (s : SpellTargetSelector) (target : Unit) : F32 :=
  F32.mul (F32.add (F32.lit 0) (meleeRangeMod c s target))
    (F32.add (F32.lit 0) (meleeRangeMod c s target))

/-! ## Lemmas on the list operations -/

theorem popFront_eq_drop (n : Nat) (l : List Unit) : popFront n l = l.drop n := by
  induction n generalizing l with
  | zero => rfl
  | succ k ih =>
    cases l with
    | nil => simp [popFront, ih]
    | cons a t => simp [popFront, ih]

theorem collectUnsorted_eq (refs : List ThreatReference) (acc : List Unit) :
    collectUnsorted refs acc = acc ++ onlineVictims refs := by
  induction refs generalizing acc with
  | nil => simp [collectUnsorted, onlineVictims]
  | cons r rs ih =>
    have step : collectUnsorted (r :: rs) acc
        = collectUnsorted rs (if r.offline then acc else acc ++ [r.victim]) := rfl
    rw [step, ih]
    cases hoff : r.offline <;> simp [onlineVictims, hoff]

theorem collectSorted_eq (refs : List ThreatReference) (cv : Option Unit) (acc : List Unit) :
    collectSorted refs cv acc
      = acc ++ (onlineVictims refs).filter (fun t => decide (some t ≠ cv)) := by
  induction refs generalizing acc with
  | nil => simp [collectSorted, onlineVictims]
  | cons r rs ih =>
    have step : collectSorted (r :: rs) cv acc
        = collectSorted rs cv
            (if r.offline then acc
              else if some r.victim ≠ cv then acc ++ [r.victim] else acc) := rfl
    rw [step, ih]
    cases hoff : r.offline
    · by_cases hv : some r.victim = cv <;> simp [onlineVictims, hoff, hv]
    · simp [onlineVictims, hoff]

theorem collectCandidates_threat (me : Actor) (targetType : SelectTargetMethod)
    (h1 : targetType ≠ SelectTargetMethod.MaxDistance)
    (h2 : targetType ≠ SelectTargetMethod.MinDistance) :
    collectCandidates me targetType = victimFirstList me.threatManager := by
  unfold collectCandidates victimFirstList
  simp only [h1, h2, or_self, if_false]
  rw [collectSorted_eq]
  cases me.threatManager.currentVictim <;> rfl

theorem collectCandidates_distance (me : Actor) (targetType : SelectTargetMethod)
    (h : targetType = SelectTargetMethod.MaxDistance
      ∨ targetType = SelectTargetMethod.MinDistance) :
    collectCandidates me targetType = onlineVictims me.threatManager.unsortedThreatList := by
  unfold collectCandidates
  simp only [h, if_true]
  rw [collectUnsorted_eq]
  rfl

/-- Unfolding of `PrepareTargetListSelection` with the loops replaced by list operations. -/
theorem prepare_unfold (me : Actor) (targetList : List Unit) (targetType : SelectTargetMethod)
    (offset : Nat) :
    PrepareTargetListSelection me targetList targetType offset
      = if me.threatManager.threatListSize ≤ offset
            ∨ (collectCandidates me targetType).length ≤ offset then
          (false, [])
        else
          (true,
            ((if targetType = SelectTargetMethod.MinThreat then
                (if targetType = SelectTargetMethod.MaxDistance
                    ∨ targetType = SelectTargetMethod.MinDistance then
                  listSort
                    (me.distanceOrderPred
                      (decide (targetType = SelectTargetMethod.MinDistance)))
                    (collectCandidates me targetType)
                else collectCandidates me targetType).reverse
              else
                (if targetType = SelectTargetMethod.MaxDistance
                    ∨ targetType = SelectTargetMethod.MinDistance then
                  listSort
                    (me.distanceOrderPred
                      (decide (targetType = SelectTargetMethod.MinDistance)))
                    (collectCandidates me targetType)
                else collectCandidates me targetType))).drop offset) := by
  unfold PrepareTargetListSelection
  simp only [listClear, List.nil_append, popFront_eq_drop]
  by_cases h1 : me.threatManager.threatListSize ≤ offset
  · simp [h1]
  · by_cases h2 : (collectCandidates me targetType).length ≤ offset
    · simp [h1, h2]
    · simp [h1, h2]

theorem sortInsert_perm (comp : Unit → Unit → Bool) (x : Unit) (l : List Unit) :
    (sortInsert comp x l).Perm (x :: l) := by
  induction l with
  | nil => exact List.Perm.refl _
  | cons y ys ih =>
    unfold sortInsert
    split
    · exact ((List.Perm.cons y ih).trans (List.Perm.swap x y ys))
    · exact List.Perm.refl _

theorem listSort_perm (comp : Unit → Unit → Bool) (l : List Unit) :
    (listSort comp l).Perm l := by
  induction l with
  | nil => exact List.Perm.refl _
  | cons x xs ih =>
    exact (sortInsert_perm comp x (listSort comp xs)).trans (List.Perm.cons x ih)

/-- Inserting into a list ordered by `R` keeps it ordered, for every comparator that only
answers `true` on pairs in `R` and only answers `false` on pairs whose converse is in `R`. -/
theorem sortInsert_pairwise (comp : Unit → Unit → Bool) (R : Unit → Unit → Prop)
    (htrans : ∀ a b c, R a b → R b c → R a c)
    (htrue : ∀ a b, comp a b = true → R a b)
    (hfalse : ∀ a b, comp a b = false → R b a)
    (x : Unit) (l : List Unit) (hl : l.Pairwise R) :
    (sortInsert comp x l).Pairwise R := by
  induction l with
  | nil => simp [sortInsert]
  | cons y ys ih =>
    have hy : ∀ z ∈ ys, R y z := (List.pairwise_cons.mp hl).1
    have hys : ys.Pairwise R := (List.pairwise_cons.mp hl).2
    unfold sortInsert
    cases hc : comp y x
    · have hxy : R x y := hfalse y x hc
      simp only [Bool.false_eq_true, if_false]
      refine List.pairwise_cons.mpr ⟨?_, hl⟩
      intro z hz
      rcases List.mem_cons.mp hz with rfl | hz
      · exact hxy
      · exact htrans _ _ _ hxy (hy z hz)
    · have hyx : R y x := htrue y x hc
      simp only [if_true]
      refine List.pairwise_cons.mpr ⟨?_, ih hys⟩
      intro z hz
      have hz2 : z ∈ x :: ys := (sortInsert_perm comp x ys).subset hz
      rcases List.mem_cons.mp hz2 with rfl | hz2
      · exact hyx
      · exact hy z hz2

theorem listSort_pairwise (comp : Unit → Unit → Bool) (R : Unit → Unit → Prop)
    (htrans : ∀ a b c, R a b → R b c → R a c)
    (htrue : ∀ a b, comp a b = true → R a b)
    (hfalse : ∀ a b, comp a b = false → R b a)
    (l : List Unit) : (listSort comp l).Pairwise R := by
  induction l with
  | nil => exact List.Pairwise.nil
  | cons x xs ih => exact sortInsert_pairwise comp R htrans htrue hfalse x _ ih

theorem objectDistanceOrderPred_true (distance : Unit → ℚ) (asc : Bool) (l r : Unit)
    (h : ObjectDistanceOrderPred distance asc l r = true) :
    if asc = true then distance l ≤ distance r else distance r ≤ distance l := by
  cases asc <;> simp [ObjectDistanceOrderPred] at h ⊢ <;> exact le_of_lt h

theorem objectDistanceOrderPred_false (distance : Unit → ℚ) (asc : Bool) (l r : Unit)
    (h : ObjectDistanceOrderPred distance asc l r = false) :
    if asc = true then distance r ≤ distance l else distance l ≤ distance r := by
  cases asc <;> simp [ObjectDistanceOrderPred] at h ⊢ <;> exact h

theorem mem_onlineVictims (refs : List ThreatReference) (u : Unit) :
    u ∈ onlineVictims refs ↔ ∃ ref ∈ refs, ref.offline = false ∧ ref.victim = u := by
  simp [onlineVictims, List.mem_map, List.mem_filter, and_assoc]

/-- Closed form of `PrepareTargetListSelection` over the method-ordered candidates. -/
theorem prepare_ordered (me : Actor) (targetList : List Unit) (targetType : SelectTargetMethod)
    (offset : Nat) :
    PrepareTargetListSelection me targetList targetType offset
      = if me.threatManager.threatListSize ≤ offset
            ∨ (collectCandidates me targetType).length ≤ offset then
          (false, [])
        else (true, (orderedCandidates me targetType).drop offset) := by
  rw [prepare_unfold]
  rfl

theorem head_filter_eq_find (p : Unit → Bool) (l : List Unit) :
    (l.filter p).head? = l.find? p := by
  induction l with
  | nil => rfl
  | cons a t ih =>
    cases hp : p a
    · simp [List.filter, List.find?, hp, ih]
    · simp [List.filter, List.find?, hp]

/-! ## Offset beyond the snapshot -/

/-- C1: for every method, threat state and offset, when the offset is at least the
threat-list size, or at least the number of candidates collected from the snapshot,
`PrepareTargetListSelection` returns false with the target list empty whatever it held on
entry; select-many then gives the empty list and select-one no target, for every predicate. -/
theorem prepare_offset_beyond_snapshot (rnd : Containers) (me : Actor) (targetList : List Unit)
    (targetType : SelectTargetMethod) (offset : Nat)
    (h : me.threatManager.threatListSize ≤ offset
      ∨ (collectCandidates me targetType).length ≤ offset) :
    PrepareTargetListSelection me targetList targetType offset = (false, [])
      ∧ (∀ (num : Nat) (predicate : Option Unit → Bool),
          SelectTargetList rnd me targetList num targetType offset predicate = [])
      ∧ (∀ predicate : Option Unit → Bool,
          SelectTarget rnd me targetType offset predicate = none) := by
  have hp : ∀ tl : List Unit,
      PrepareTargetListSelection me tl targetType offset = (false, []) := by
    intro tl
    rw [prepare_unfold, if_pos h]
  refine ⟨hp targetList, ?_, ?_⟩
  · intro num predicate
    simp [SelectTargetList, hp targetList]
  · intro predicate
    simp [SelectTarget, hp [], FinalizeTargetSelection]

/-- Witness of C1 on the scenario: offset 3 against three candidates, list `[7, 8]` on entry. -/
theorem prepare_offset_beyond_snapshot_witness :
    (scenarioActor.threatManager.threatListSize ≤ 3
        ∨ (collectCandidates scenarioActor SelectTargetMethod.MaxThreat).length ≤ 3)
      ∧ PrepareTargetListSelection scenarioActor [7, 8] SelectTargetMethod.MaxThreat 3
          = (false, [])
      ∧ SelectTargetList frontContainers scenarioActor [7, 8] 5 SelectTargetMethod.MaxThreat 3
          (fun _ => true) = []
      ∧ SelectTarget frontContainers scenarioActor SelectTargetMethod.MaxThreat 3
          (fun _ => true) = none :=
  have h := prepare_offset_beyond_snapshot frontContainers scenarioActor [7, 8]
    SelectTargetMethod.MaxThreat 3 (by decide)
  ⟨by decide, h.1, h.2.1 5 (fun _ => true), h.2.2 (fun _ => true)⟩

/-! ## Threat-ordered selection -/

/-- C2: for MinThreat, when the offset is below the threat-list size and below the number of
candidates, the prepared list is the reverse of (current victim, then the online entries of
the descending-threat list other than it) without its first `offset` elements, and
`FinalizeTargetListSelection` keeps the first `num` elements of that list in order. -/
theorem prepare_minThreat_reverse (rnd : Containers) (me : Actor) (targetList : List Unit)
    (offset num : Nat)
    (hsize : offset < me.threatManager.threatListSize)
    (hlen : offset < (victimFirstList me.threatManager).length) :
    PrepareTargetListSelection me targetList SelectTargetMethod.MinThreat offset
        = (true, (victimFirstList me.threatManager).reverse.drop offset)
      ∧ FinalizeTargetListSelection rnd
          ((victimFirstList me.threatManager).reverse.drop offset) num
          SelectTargetMethod.MinThreat
        = ((victimFirstList me.threatManager).reverse.drop offset).take num := by
  have hc : collectCandidates me SelectTargetMethod.MinThreat
      = victimFirstList me.threatManager :=
    collectCandidates_threat me _ (by decide) (by decide)
  constructor
  · rw [prepare_unfold, hc, if_neg (by omega)]
    simp
  · unfold FinalizeTargetListSelection
    split
    · next hle => exact (List.take_of_length_le hle).symm
    · simp

/-- Witness of C2: entries `A: 100, B: 80, C: 50`, current victim `B`, offset 0, num 2: the
victim-first order `[B, A, C]` is reversed to `[C, A, B]` and capped to `[C, A]`. -/
theorem prepare_minThreat_reverse_witness :
    victimFirstList scenarioActor.threatManager = [unitB, unitA, unitC]
      ∧ PrepareTargetListSelection scenarioActor [] SelectTargetMethod.MinThreat 0
          = (true, [unitC, unitA, unitB])
      ∧ FinalizeTargetListSelection frontContainers [unitC, unitA, unitB] 2
          SelectTargetMethod.MinThreat = [unitC, unitA] :=
  have h := prepare_minThreat_reverse frontContainers scenarioActor [] 0 2
    (by decide) (by decide)
  ⟨by decide, h.1, h.2⟩

/-- C3: for MaxThreat with offset 0, a non-empty threat list and a current victim, the
prepared list is the current victim followed by the victims of the online entries of the
descending-threat list without the current victim, which therefore occurs exactly once, and
`FinalizeTargetSelection` on that list returns the current victim. -/
theorem prepare_maxThreat_victim_first (rnd : Containers) (me : Actor) (targetList : List Unit)
    (cv : Unit)
    (hsize : 0 < me.threatManager.threatListSize)
    (hcv : me.threatManager.currentVictim = some cv) :
    PrepareTargetListSelection me targetList SelectTargetMethod.MaxThreat 0
        = (true,
            cv :: (onlineVictims me.threatManager.sortedThreatList).filter
              (fun t => decide (t ≠ cv)))
      ∧ cv ∉ (onlineVictims me.threatManager.sortedThreatList).filter
              (fun t => decide (t ≠ cv))
      ∧ (cv :: (onlineVictims me.threatManager.sortedThreatList).filter
              (fun t => decide (t ≠ cv))).count cv = 1
      ∧ FinalizeTargetSelection rnd
          (cv :: (onlineVictims me.threatManager.sortedThreatList).filter
              (fun t => decide (t ≠ cv)))
          SelectTargetMethod.MaxThreat = some cv := by
  have hc : collectCandidates me SelectTargetMethod.MaxThreat
      = cv :: (onlineVictims me.threatManager.sortedThreatList).filter
          (fun t => decide (t ≠ cv)) := by
    rw [collectCandidates_threat me _ (by decide) (by decide)]
    simp [victimFirstList, hcv]
  have hnot : cv ∉ (onlineVictims me.threatManager.sortedThreatList).filter
      (fun t => decide (t ≠ cv)) := by
    simp [List.mem_filter]
  refine ⟨?_, hnot, ?_, ?_⟩
  · rw [prepare_unfold, hc, if_neg (by simp; omega)]
    simp
  · rw [List.count_cons_self, List.count_eq_zero_of_not_mem hnot]
  · simp [FinalizeTargetSelection]

/-- Witness of C3: entries `A: 100, B: 80, C: 50` with current victim `B`: the prepared list
is `[B, A, C]` and the selected target is `B`, although `A` has more threat. -/
theorem prepare_maxThreat_victim_first_witness :
    PrepareTargetListSelection scenarioActor [] SelectTargetMethod.MaxThreat 0
        = (true, [unitB, unitA, unitC])
      ∧ FinalizeTargetSelection frontContainers [unitB, unitA, unitC]
          SelectTargetMethod.MaxThreat = some unitB :=
  have h := prepare_maxThreat_victim_first frontContainers scenarioActor [] unitB
    (by decide) (by decide)
  ⟨h.1, h.2.2.2⟩

/-- C4 as stated fails for MinThreat: with entries `A: 100, B: 80, C: 50`, current victim `B`
and offset 0 the preparation succeeds with `[C, A, B]`, whose first element is `C`. -/
theorem victim_at_head_minThreat_counterexample :
    scenarioActor.threatManager.currentVictim = some unitB
      ∧ PrepareTargetListSelection scenarioActor [] SelectTargetMethod.MinThreat 0
          = (true, [unitC, unitA, unitB])
      ∧ [unitC, unitA, unitB].head? ≠ some unitB := by
  decide

/-- C4 (amended): whenever a current victim exists and `PrepareTargetListSelection` succeeds
with offset 0, the current victim is the first element of the prepared list for MaxThreat and
the last element of the prepared list for MinThreat. -/
theorem victim_position_threat_methods (me : Actor) (targetList prepared : List Unit)
    (targetType : SelectTargetMethod) (cv : Unit)
    (hcv : me.threatManager.currentVictim = some cv)
    (hok : PrepareTargetListSelection me targetList targetType 0 = (true, prepared)) :
    (targetType = SelectTargetMethod.MaxThreat → prepared.head? = some cv)
      ∧ (targetType = SelectTargetMethod.MinThreat → prepared.getLast? = some cv) := by
  have hv : victimFirstList me.threatManager
      = cv :: (onlineVictims me.threatManager.sortedThreatList).filter
          (fun t => decide (some t ≠ some cv)) := by
    simp [victimFirstList, hcv]
  rw [prepare_unfold] at hok
  constructor
  · intro ht
    subst ht
    rw [collectCandidates_threat me _ (by decide) (by decide), hv] at hok
    split at hok
    · simp at hok
    · simp at hok
      rw [← hok]
      rfl
  · intro ht
    subst ht
    rw [collectCandidates_threat me _ (by decide) (by decide), hv] at hok
    split at hok
    · simp at hok
    · simp at hok
      rw [← hok]
      simp

/-- Witness of C4 (amended) on the scenario, method MinThreat: the prepared list
`[C, A, B]` ends with the current victim `B`. -/
theorem victim_position_threat_methods_witness :
    (SelectTargetMethod.MinThreat = SelectTargetMethod.MaxThreat
        → [unitC, unitA, unitB].head? = some unitB)
      ∧ (SelectTargetMethod.MinThreat = SelectTargetMethod.MinThreat
        → [unitC, unitA, unitB].getLast? = some unitB) :=
  victim_position_threat_methods scenarioActor [] [unitC, unitA, unitB]
    SelectTargetMethod.MinThreat unitB (by decide) (by decide)

/-! ## Size capping -/

/-- C5: the list left by `FinalizeTargetListSelection` has at most `num` elements, for the
Random method provided the random-resize helper returns exactly the requested number of
elements; for every other method it is the first `min num length` elements of the input in
their order; a list of at most `num` elements is returned unchanged. -/
theorem finalize_list_capped (rnd : Containers) (targetList : List Unit) (num : Nat)
    (targetType : SelectTargetMethod)
    (hresize : ∀ (l : List Unit) (n : Nat), n < l.length → (rnd.RandomResize l n).length = n) :
    (FinalizeTargetListSelection rnd targetList num targetType).length ≤ num
      ∧ (targetType ≠ SelectTargetMethod.Random →
          FinalizeTargetListSelection rnd targetList num targetType
            = targetList.take (min num targetList.length))
      ∧ (targetList.length ≤ num →
          FinalizeTargetListSelection rnd targetList num targetType = targetList) := by
  unfold FinalizeTargetListSelection
  by_cases hle : targetList.length ≤ num
  · simp only [if_pos hle]
    refine ⟨hle, fun _ => ?_, fun _ => trivial⟩
    rw [Nat.min_eq_right hle, List.take_length]
  · simp only [if_neg hle]
    have hlt : num < targetList.length := Nat.lt_of_not_le hle
    refine ⟨?_, fun hnr => ?_, fun h => absurd h hle⟩
    · by_cases hr : targetType = SelectTargetMethod.Random
      · rw [if_pos hr, hresize targetList num hlt]
      · rw [if_neg hr, List.length_take]
        exact Nat.min_le_left _ _
    · rw [if_neg hnr, Nat.min_eq_left (Nat.le_of_lt hlt)]

/-- Witness of C5: capping `[C, A, B]` to 2 with the Random method and a helper that keeps
the first elements. -/
theorem finalize_list_capped_witness :
    (FinalizeTargetListSelection frontContainers [unitC, unitA, unitB] 2
        SelectTargetMethod.Random).length ≤ 2
      ∧ (SelectTargetMethod.Random ≠ SelectTargetMethod.Random →
          FinalizeTargetListSelection frontContainers [unitC, unitA, unitB] 2
              SelectTargetMethod.Random
            = [unitC, unitA, unitB].take (min 2 [unitC, unitA, unitB].length))
      ∧ ([unitC, unitA, unitB].length ≤ 2 →
          FinalizeTargetListSelection frontContainers [unitC, unitA, unitB] 2
              SelectTargetMethod.Random = [unitC, unitA, unitB]) :=
  finalize_list_capped frontContainers [unitC, unitA, unitB] 2 SelectTargetMethod.Random
    (fun l n hn => by
      show (l.take n).length = n
      rw [List.length_take]
      exact Nat.min_eq_left (Nat.le_of_lt hn))

/-! ## Distance-ordered selection -/

/-- C6: for MinDistance and MaxDistance, provided the distance comparator of the actor only
puts a unit first when it is not farther (ascending) or not nearer (descending) than the
other, a successful `PrepareTargetListSelection` yields the sorted sequence of the victims of
all online entries of the unsorted threat list without its first `offset` elements; that list
is ordered by distance to the actor, non-decreasing for MinDistance and non-increasing for
MaxDistance; every element is the victim of an online entry; and the result is the same
whatever the current victim is. -/
theorem prepare_distance_sorted (me : Actor) (targetList prepared : List Unit)
    (targetType : SelectTargetMethod) (offset : Nat)
    (hmethod : targetType = SelectTargetMethod.MaxDistance
      ∨ targetType = SelectTargetMethod.MinDistance)
    (htrue : ∀ (asc : Bool) (l r : Unit), me.distanceOrderPred asc l r = true →
      if asc = true then me.distance l ≤ me.distance r else me.distance r ≤ me.distance l)
    (hfalse : ∀ (asc : Bool) (l r : Unit), me.distanceOrderPred asc l r = false →
      if asc = true then me.distance r ≤ me.distance l else me.distance l ≤ me.distance r)
    (hok : PrepareTargetListSelection me targetList targetType offset = (true, prepared)) :
    prepared
        = (listSort (me.distanceOrderPred (decide (targetType = SelectTargetMethod.MinDistance)))
            (onlineVictims me.threatManager.unsortedThreatList)).drop offset
      ∧ (listSort (me.distanceOrderPred (decide (targetType = SelectTargetMethod.MinDistance)))
            (onlineVictims me.threatManager.unsortedThreatList)).Perm
          (onlineVictims me.threatManager.unsortedThreatList)
      ∧ (targetType = SelectTargetMethod.MinDistance →
          prepared.Pairwise (fun a b => me.distance a ≤ me.distance b))
      ∧ (targetType = SelectTargetMethod.MaxDistance →
          prepared.Pairwise (fun a b => me.distance b ≤ me.distance a))
      ∧ (∀ u ∈ prepared,
          ∃ ref ∈ me.threatManager.unsortedThreatList, ref.offline = false ∧ ref.victim = u)
      ∧ (∀ cv : Option Unit,
          PrepareTargetListSelection
              { me with threatManager := { me.threatManager with currentVictim := cv } }
              targetList targetType offset
            = (true, prepared)) := by
  have hnm : targetType ≠ SelectTargetMethod.MinThreat := by
    rcases hmethod with h | h <;> rw [h] <;> decide
  have hprep : ∀ m : Actor,
      m.threatManager.unsortedThreatList = me.threatManager.unsortedThreatList →
      m.threatManager.threatListSize = me.threatManager.threatListSize →
      m.distanceOrderPred = me.distanceOrderPred →
      PrepareTargetListSelection m targetList targetType offset
        = if me.threatManager.threatListSize ≤ offset
              ∨ (onlineVictims me.threatManager.unsortedThreatList).length ≤ offset then
            (false, [])
          else
            (true,
              (listSort
                (me.distanceOrderPred (decide (targetType = SelectTargetMethod.MinDistance)))
                (onlineVictims me.threatManager.unsortedThreatList)).drop offset) := by
    intro m h1 h2 h3
    rw [prepare_unfold, collectCandidates_distance m targetType hmethod, h1, h2, h3]
    simp only [hnm, hmethod, if_false, if_true]
  have hme := hprep me rfl rfl rfl
  rw [hme] at hok
  split at hok
  · simp at hok
  next hcond =>
    have heq : prepared
        = (listSort
            (me.distanceOrderPred (decide (targetType = SelectTargetMethod.MinDistance)))
            (onlineVictims me.threatManager.unsortedThreatList)).drop offset :=
      ((Prod.mk.injEq _ _ _ _).mp hok).2.symm
    have hperm := listSort_perm
      (me.distanceOrderPred (decide (targetType = SelectTargetMethod.MinDistance)))
      (onlineVictims me.threatManager.unsortedThreatList)
    refine ⟨heq, hperm, ?_, ?_, ?_, ?_⟩
    · intro ht
      rw [heq]
      refine List.Pairwise.sublist (List.drop_sublist _ _) ?_
      refine listSort_pairwise _ (fun a b => me.distance a ≤ me.distance b)
        (fun a b c hab hbc => le_trans hab hbc) ?_ ?_ _
      · intro a b h
        have := htrue _ a b h
        simpa [ht] using this
      · intro a b h
        have := hfalse _ a b h
        simpa [ht] using this
    · intro ht
      rw [heq]
      refine List.Pairwise.sublist (List.drop_sublist _ _) ?_
      refine listSort_pairwise _ (fun a b => me.distance b ≤ me.distance a)
        (fun a b c hab hbc => le_trans hbc hab) ?_ ?_ _
      · intro a b h
        have := htrue _ a b h
        simpa [ht] using this
      · intro a b h
        have := hfalse _ a b h
        simpa [ht] using this
    · intro u hu
      rw [heq] at hu
      exact (mem_onlineVictims _ u).mp (hperm.subset (List.mem_of_mem_drop hu))
    · intro cv
      have hcvprep := hprep
        { me with threatManager := { me.threatManager with currentVictim := cv } } rfl rfl rfl
      rw [if_neg hcond, ← heq] at hcvprep
      exact hcvprep

/-- Witness of C6 on the scenario (unsorted view `C, A, B` at distances 20, 30, 10, current
victim `B`): MinDistance with offset 1 yields `[C, A]`. -/
theorem prepare_distance_sorted_witness :
    PrepareTargetListSelection scenarioActor [] SelectTargetMethod.MinDistance 1
        = (true, [unitC, unitA])
      ∧ ([unitC, unitA] : List Unit)
        = (listSort (scenarioActor.distanceOrderPred true)
            (onlineVictims scenarioActor.threatManager.unsortedThreatList)).drop 1
      ∧ ([unitC, unitA] : List Unit).Pairwise
          (fun a b => scenarioActor.distance a ≤ scenarioActor.distance b) :=
  have h := prepare_distance_sorted scenarioActor [] [unitC, unitA]
    SelectTargetMethod.MinDistance 1 (Or.inr rfl)
    (fun asc l r hp => objectDistanceOrderPred_true _ asc l r hp)
    (fun asc l r hp => objectDistanceOrderPred_false _ asc l r hp)
    (by decide)
  ⟨by decide, h.1, h.2.2.1 rfl⟩

/-! ## Default selector -/

/-- C7: a target that is the last victim of the threat subsystem and passes the player-only,
distance and aura checks is rejected by the selector built over the actor with
`withTank = false` and accepted by the selector built with `withTank = true` and the same
other parameters. -/
theorem default_selector_tank_exception (me : Actor) (target : Unit) (dist : ℚ)
    (playerOnly : Bool) (aura : Int)
    (hlast : me.threatManager.lastVictim = some target)
    (hplayer : playerOnly = true → me.typeId target = TypeID.TYPEID_PLAYER)
    (hwithin : 0 < dist → me.isWithinCombatRange target dist = true)
    (hbeyond : dist < 0 → me.isWithinCombatRange target (-dist) = false)
    (hhas : 0 < aura → me.hasAura target aura.toNat = true)
    (hlacks : aura < 0 → me.hasAura target (-aura).toNat = false) :
    (DefaultTargetSelector.new (some me) dist playerOnly false aura).map
        (fun s => s.call (some target)) = some false
      ∧ (DefaultTargetSelector.new (some me) dist playerOnly true aura).map
        (fun s => s.call (some target)) = some true := by
  constructor
  · simp [DefaultTargetSelector.new, DefaultTargetSelector.call, hlast]
  · simp only [DefaultTargetSelector.new, DefaultTargetSelector.call, Bool.not_true,
      Bool.false_eq_true, if_false, Option.map_some', Option.isSome_none, false_and]
    have h1 : ¬ (playerOnly = true ∧ me.typeId target ≠ TypeID.TYPEID_PLAYER) :=
      fun h => h.2 (hplayer h.1)
    have h2 : ¬ (dist > 0 ∧ me.isWithinCombatRange target dist = false) := by
      intro h
      rw [hwithin h.1] at h
      exact Bool.noConfusion h.2
    have h3 : ¬ (dist < 0 ∧ me.isWithinCombatRange target (-dist) = true) := by
      intro h
      rw [hbeyond h.1] at h
      exact Bool.noConfusion h.2
    rw [if_neg h1, if_neg h2, if_neg h3]
    by_cases ha : aura = 0
    · simp [ha]
    · rw [if_pos ha]
      by_cases hp : aura > 0
      · rw [if_pos hp, hhas hp]
        rfl
      · rw [if_neg hp, hlacks (lt_of_le_of_ne (not_lt.mp hp) ha)]
        rfl

/-- Witness of C7 on the scenario: `A` is the last victim, within 40 of the actor and free
of aura 17; the selector for distance 40 and aura `-17` rejects it with the tank exception
and accepts it without. -/
theorem default_selector_tank_exception_witness :
    (DefaultTargetSelector.new
          (some { scenarioActor with isWithinCombatRange := fun _ d => decide (30 ≤ d) })
          40 false false (-17)).map
        (fun s => s.call (some unitA)) = some false
      ∧ (DefaultTargetSelector.new
          (some { scenarioActor with isWithinCombatRange := fun _ d => decide (30 ≤ d) })
          40 false true (-17)).map
        (fun s => s.call (some unitA)) = some true :=
  default_selector_tank_exception
    { scenarioActor with isWithinCombatRange := fun _ d => decide (30 ≤ d) }
    unitA 40 false (-17) rfl (by decide) (fun _ => by decide) (by decide) (by decide)
    (fun _ => rfl)

/-! ## Directed cast and melee swing -/

/-- C8: `DoCast(victim, spellId, args)` returns `SPELL_FAILED_SPELL_IN_PROGRESS` with the
actor untouched (no call to the casting subsystem) exactly when the actor is casting and
`args` does not carry `TRIGGERED_IGNORE_CAST_IN_PROGRESS`; in every other case it makes one
`CastSpell` call with the same target, id and options and returns the verdict of that call. -/
theorem doCast_in_progress_iff (TRIGGERED_IGNORE_CAST_IN_PROGRESS : Nat) (me : Actor)
    (victim : Option Unit) (spellId : Nat) (args : CastSpellExtraArgs) :
    ((DoCast TRIGGERED_IGNORE_CAST_IN_PROGRESS me victim spellId args).1
            = SpellCastResult.SPELL_FAILED_SPELL_IN_PROGRESS
          ∧ (DoCast TRIGGERED_IGNORE_CAST_IN_PROGRESS me victim spellId args).2.calls = me.calls
        ↔ me.casting = true ∧ args.TriggerFlags &&& TRIGGERED_IGNORE_CAST_IN_PROGRESS = 0)
      ∧ (me.casting = true ∧ args.TriggerFlags &&& TRIGGERED_IGNORE_CAST_IN_PROGRESS = 0 →
          DoCast TRIGGERED_IGNORE_CAST_IN_PROGRESS me victim spellId args
            = (SpellCastResult.SPELL_FAILED_SPELL_IN_PROGRESS, me))
      ∧ (¬ (me.casting = true ∧ args.TriggerFlags &&& TRIGGERED_IGNORE_CAST_IN_PROGRESS = 0) →
          DoCast TRIGGERED_IGNORE_CAST_IN_PROGRESS me victim spellId args
            = (me.castResult victim spellId args,
                { me with calls := me.calls ++ [Call.CastSpell victim spellId args] })) := by
  by_cases hc : me.casting = true ∧ args.TriggerFlags &&& TRIGGERED_IGNORE_CAST_IN_PROGRESS = 0
  · have hd : DoCast TRIGGERED_IGNORE_CAST_IN_PROGRESS me victim spellId args
        = (SpellCastResult.SPELL_FAILED_SPELL_IN_PROGRESS, me) := by
      unfold DoCast
      rw [if_pos ⟨hc.1, by simpa using hc.2⟩]
    refine ⟨?_, fun _ => hd, fun h => absurd hc h⟩
    rw [hd]
    exact ⟨fun _ => hc, fun _ => ⟨rfl, rfl⟩⟩
  · have hd : DoCast TRIGGERED_IGNORE_CAST_IN_PROGRESS me victim spellId args
        = (me.castResult victim spellId args,
            { me with calls := me.calls ++ [Call.CastSpell victim spellId args] }) := by
      unfold DoCast
      rw [if_neg (fun h => hc ⟨h.1, by simpa using h.2⟩)]
      rfl
    refine ⟨?_, fun h => absurd h hc, fun _ => hd⟩
    rw [hd]
    constructor
    · intro h
      have hlen := congrArg List.length h.2
      simp at hlen
    · intro h
      exact absurd h hc

/-- C9: when the actor is casting, or its current victim is not within melee range,
`DoMeleeAttackIfReady` returns the actor unchanged: no swing is recorded and no timer is
reset, whatever the timers are. -/
theorem doMelee_noop (me : Actor)
    (h : me.casting = true ∨ me.isWithinMeleeRange me.victim = false) :
    DoMeleeAttackIfReady me = me := by
  unfold DoMeleeAttackIfReady
  by_cases hc : me.casting = true
  · rw [if_pos hc]
  · rw [if_neg hc]
    rcases h with h | h
    · exact absurd h hc
    · simp only [h, if_true]

/-- Witness of C9: the scenario actor holds an off-hand weapon and both timers are ready, the
victim `B` is out of melee range; a call leaves the actor unchanged, while the same actor
within melee range swings with both hands. -/
theorem doMelee_noop_witness :
    ({ scenarioActor with haveOffhandWeapon := true } : Actor).isAttackReady
        WeaponAttackType.BASE_ATTACK = true
      ∧ ({ scenarioActor with haveOffhandWeapon := true } : Actor).isAttackReady
        WeaponAttackType.OFF_ATTACK = true
      ∧ DoMeleeAttackIfReady { scenarioActor with haveOffhandWeapon := true }
        = { scenarioActor with haveOffhandWeapon := true }
      ∧ (DoMeleeAttackIfReady
          { scenarioActor with haveOffhandWeapon := true, isWithinMeleeRange := fun _ => true }).calls
        = [Call.AttackerStateUpdate (some unitB) WeaponAttackType.BASE_ATTACK,
            Call.resetAttackTimer WeaponAttackType.BASE_ATTACK,
            Call.AttackerStateUpdate (some unitB) WeaponAttackType.OFF_ATTACK,
            Call.resetAttackTimer WeaponAttackType.OFF_ATTACK] :=
  ⟨by decide, by decide,
    doMelee_noop { scenarioActor with haveOffhandWeapon := true } (Or.inr rfl), by decide⟩

/-! ## Offset and predicate -/

/-- C10 as stated fails: on the scenario (MaxThreat order `[B, A, C]`) with the predicate
"is not `B`" and offset 1, the qualifying candidates in order are `[A, C]`, so skipping one
qualifying candidate would leave `C`; the selection returns `A` and the list `[A, C]`, because
the rejected `B` used up the offset position. -/
theorem select_predicate_before_offset_counterexample :
    PrepareTargetListSelection scenarioActor [] SelectTargetMethod.MaxThreat 0
        = (true, [unitB, unitA, unitC])
      ∧ ([unitB, unitA, unitC].filter (fun t => decide (some t ≠ some unitB))).drop 1 = [unitC]
      ∧ PrepareTargetListSelection scenarioActor [] SelectTargetMethod.MaxThreat 1
        = (true, [unitA, unitC])
      ∧ SelectTarget frontContainers scenarioActor SelectTargetMethod.MaxThreat 1
          (fun t => decide (t ≠ some unitB)) = some unitA
      ∧ SelectTargetList frontContainers scenarioActor [] 5 SelectTargetMethod.MaxThreat 1
          (fun t => decide (t ≠ some unitB)) = [unitA, unitC] := by
  decide

/-- C10 (amended): the offset is skipped before the predicate is applied. When
`PrepareTargetListSelection` succeeds, its list is the method-ordered list of all collected
candidates without its first `offset` entries, qualifying or not; select-many caps the
qualifying entries of that remainder, select-one resolves among them, and for the four
ordered methods select-one returns the first qualifying candidate after the first `offset`
entries of the method's order. -/
theorem select_offset_before_predicate (rnd : Containers) (me : Actor)
    (targetList prepared : List Unit) (num : Nat) (targetType : SelectTargetMethod)
    (offset : Nat) (predicate : Option Unit → Bool)
    (hok : PrepareTargetListSelection me targetList targetType offset = (true, prepared)) :
    PrepareTargetListSelection me targetList targetType 0
        = (true, orderedCandidates me targetType)
      ∧ prepared = (orderedCandidates me targetType).drop offset
      ∧ SelectTargetList rnd me targetList num targetType offset predicate
        = FinalizeTargetListSelection rnd
            (((orderedCandidates me targetType).drop offset).filter
              (fun t => predicate (some t)))
            num targetType
      ∧ SelectTarget rnd me targetType offset predicate
        = FinalizeTargetSelection rnd
            (((orderedCandidates me targetType).drop offset).filter
              (fun t => predicate (some t)))
            targetType
      ∧ (targetType = SelectTargetMethod.MaxThreat ∨ targetType = SelectTargetMethod.MinThreat
          ∨ targetType = SelectTargetMethod.MaxDistance
          ∨ targetType = SelectTargetMethod.MinDistance →
        SelectTarget rnd me targetType offset predicate
          = ((orderedCandidates me targetType).drop offset).find?
              (fun t => predicate (some t))) := by
  have hcond : ¬ (me.threatManager.threatListSize ≤ offset
      ∨ (collectCandidates me targetType).length ≤ offset) := by
    intro hc
    rw [prepare_ordered, if_pos hc] at hok
    simp at hok
  have hprep : ∀ tl : List Unit, PrepareTargetListSelection me tl targetType offset
      = (true, (orderedCandidates me targetType).drop offset) := by
    intro tl
    rw [prepare_ordered, if_neg hcond]
  have heq : prepared = (orderedCandidates me targetType).drop offset := by
    rw [hprep] at hok
    exact ((Prod.mk.injEq _ _ _ _).mp hok).2.symm
  have hone : SelectTarget rnd me targetType offset predicate
      = FinalizeTargetSelection rnd
          (((orderedCandidates me targetType).drop offset).filter
            (fun t => predicate (some t)))
          targetType := by
    simp [SelectTarget, hprep []]
  refine ⟨?_, heq, ?_, hone, ?_⟩
  · rw [prepare_ordered, if_neg (by omega)]
    rfl
  · simp [SelectTargetList, hprep targetList]
  · intro hm
    rw [hone]
    have hfront : ∀ l : List Unit, FinalizeTargetSelection rnd l targetType = l.head? := by
      intro l
      cases l with
      | nil => simp [FinalizeTargetSelection]
      | cons a t =>
        rcases hm with h | h | h | h <;> subst h <;> simp [FinalizeTargetSelection]
    rw [hfront, head_filter_eq_find]

/-- Witness of C10 (amended) on the scenario: MaxThreat order `[B, A, C]`, offset 1 and the
predicate "is not `B`": the remainder is `[A, C]` and select-one returns `A`. -/
theorem select_offset_before_predicate_witness :
    ([unitA, unitC] : List Unit)
        = (orderedCandidates scenarioActor SelectTargetMethod.MaxThreat).drop 1
      ∧ SelectTarget frontContainers scenarioActor SelectTargetMethod.MaxThreat 1
          (fun t => decide (t ≠ some unitB))
        = ((orderedCandidates scenarioActor SelectTargetMethod.MaxThreat).drop 1).find?
            (fun t => decide (some t ≠ some unitB)) :=
  have h := select_offset_before_predicate frontContainers scenarioActor [] [unitA, unitC] 5
    SelectTargetMethod.MaxThreat 1 (fun t => decide (t ≠ some unitB)) (by decide)
  ⟨h.2.1, h.2.2.2.2 (Or.inl rfl)⟩

/-! ## Single-target resolution -/

/-- C11: `FinalizeTargetSelection` returns no target for the empty list and for every method
value outside the five known ones; on a non-empty list it returns the first element for
MaxThreat, MinThreat, MaxDistance and MinDistance, and for Random, provided the random pick
returns an element of a non-empty list, an element of the list. -/
theorem finalize_selection_cases (rnd : Containers) (targetList : List Unit)
    (targetType : SelectTargetMethod)
    (hpick : ∀ l : List Unit, l ≠ [] → rnd.SelectRandomContainerElement l ∈ l) :
    FinalizeTargetSelection rnd [] targetType = none
      ∧ (∀ raw : Nat,
          FinalizeTargetSelection rnd targetList (SelectTargetMethod.Unrecognized raw) = none)
      ∧ (∀ (first : Unit) (rest : List Unit), targetList = first :: rest →
          (targetType = SelectTargetMethod.MaxThreat ∨ targetType = SelectTargetMethod.MinThreat
              ∨ targetType = SelectTargetMethod.MaxDistance
              ∨ targetType = SelectTargetMethod.MinDistance →
            FinalizeTargetSelection rnd targetList targetType = some first)
          ∧ ∃ u ∈ targetList,
              FinalizeTargetSelection rnd targetList SelectTargetMethod.Random = some u) := by
  refine ⟨by simp [FinalizeTargetSelection], ?_, ?_⟩
  · intro raw
    cases targetList <;> simp [FinalizeTargetSelection]
  · intro first rest hl
    subst hl
    constructor
    · intro hm
      rcases hm with h | h | h | h <;> subst h <;> simp [FinalizeTargetSelection]
    · refine ⟨rnd.SelectRandomContainerElement (first :: rest),
        hpick _ (List.cons_ne_nil _ _), ?_⟩
      simp [FinalizeTargetSelection]

/-- Witness of C11 with the pick-from-the-back helper on `[B, A, C]`: MinDistance gives the
first element `B`, Random gives the element `C`. -/
theorem finalize_selection_cases_witness :
    FinalizeTargetSelection backContainers [unitB, unitA, unitC] SelectTargetMethod.MinDistance
        = some unitB
      ∧ FinalizeTargetSelection backContainers [unitB, unitA, unitC] SelectTargetMethod.Random
        = some unitC
      ∧ FinalizeTargetSelection backContainers [unitB, unitA, unitC]
          (SelectTargetMethod.Unrecognized 9) = none :=
  have h := finalize_selection_cases backContainers [unitB, unitA, unitC]
    SelectTargetMethod.MinDistance
    (fun l hl => by
      show l.getLastD 0 ∈ l
      cases l with
      | nil => exact absurd rfl hl
      | cons a t =>
        rw [List.getLastD_cons]
        cases t with
        | nil => simp
        | cons b t2 =>
          rw [List.getLastD_eq_getLast?, List.getLast?_eq_getLast _ (List.cons_ne_nil _ _)]
          exact List.mem_cons_of_mem _ (List.getLast_mem _))
  ⟨(h.2.2 unitB [unitA, unitC] rfl).1 (Or.inr (Or.inr (Or.inr rfl))), by decide, h.2.1 9⟩

/-! ## Opportunistic spell attack -/

/-- C14: `DoSpellAttackIfReady` (1) returns true with the actor untouched when the actor is
casting or the main-hand timer is not ready; (2) otherwise, when the descriptor exists and
the current victim is within the spell's max range, makes exactly one cast on the current
victim, resets the main-hand timer and returns true; (3) otherwise, for an unknown spell id
or a victim out of range, returns false with the actor untouched. -/
theorem doSpellAttack_cases (decl : Declared) (mgr : SpellMgr) (me : Actor) (spell : Nat) :
    (me.casting = true ∨ me.isAttackReady WeaponAttackType.BASE_ATTACK = false →
        DoSpellAttackIfReady decl mgr me spell = (true, me))
      ∧ (∀ spellInfo : SpellInfo,
          me.casting = false → me.isAttackReady WeaponAttackType.BASE_ATTACK = true →
          mgr.GetSpellInfo spell = some spellInfo →
          me.IsWithinCombatRange me.victim (spellInfo.GetMaxRange false) = true →
          (DoSpellAttackIfReady decl mgr me spell).1 = true
            ∧ (DoSpellAttackIfReady decl mgr me spell).2.calls
              = me.calls
                ++ [Call.CastSpell me.victim spell decl.castArgsFalse,
                    Call.resetAttackTimer WeaponAttackType.BASE_ATTACK]
            ∧ (DoSpellAttackIfReady decl mgr me spell).2.attackTimer
                  WeaponAttackType.BASE_ATTACK
              = me.attackTime WeaponAttackType.BASE_ATTACK
            ∧ (DoSpellAttackIfReady decl mgr me spell).2.attackTimer
                  WeaponAttackType.OFF_ATTACK
              = me.attackTimer WeaponAttackType.OFF_ATTACK)
      ∧ (me.casting = false → me.isAttackReady WeaponAttackType.BASE_ATTACK = true →
          (mgr.GetSpellInfo spell = none
            ∨ ∃ spellInfo, mgr.GetSpellInfo spell = some spellInfo
                ∧ me.IsWithinCombatRange me.victim (spellInfo.GetMaxRange false) = false) →
          DoSpellAttackIfReady decl mgr me spell = (false, me)) := by
  refine ⟨?_, ?_, ?_⟩
  · intro h
    unfold DoSpellAttackIfReady
    rw [if_pos h]
  · intro spellInfo hc hr hs hw
    have hg : ¬ (me.casting = true ∨ me.isAttackReady WeaponAttackType.BASE_ATTACK = false) := by
      simp [hc, hr]
    unfold DoSpellAttackIfReady
    rw [if_neg hg]
    simp only [hs, hw, if_true]
    refine ⟨trivial, ?_, ?_, ?_⟩
    · simp [Actor.resetAttackTimer, Actor.CastSpell]
    · simp [Actor.resetAttackTimer, Actor.CastSpell]
    · simp [Actor.resetAttackTimer, Actor.CastSpell]
  · intro hc hr h
    have hg : ¬ (me.casting = true ∨ me.isAttackReady WeaponAttackType.BASE_ATTACK = false) := by
      simp [hc, hr]
    unfold DoSpellAttackIfReady
    rw [if_neg hg]
    rcases h with h | ⟨spellInfo, hs, hw⟩
    · simp only [h]
    · simp only [hs, hw]
      rfl

/-- Witness of C14 on the scenario with every unit in range: spell 1 is known, so one cast on
the victim `B` is followed by the reset of the main-hand timer; id 0 is unknown, so the
result is false and the actor is untouched; a casting actor gets true and is untouched. -/
theorem doSpellAttack_cases_witness :
    (DoSpellAttackIfReady scenarioDeclared scenarioSpellMgr scenarioActorInRange 1).1 = true
      ∧ (DoSpellAttackIfReady scenarioDeclared scenarioSpellMgr scenarioActorInRange 1).2.calls
        = [Call.CastSpell (some unitB) 1 ⟨0⟩,
            Call.resetAttackTimer WeaponAttackType.BASE_ATTACK]
      ∧ DoSpellAttackIfReady scenarioDeclared scenarioSpellMgr scenarioActorInRange 0
        = (false, scenarioActorInRange)
      ∧ DoSpellAttackIfReady scenarioDeclared scenarioSpellMgr
          { scenarioActorInRange with casting := true } 1
        = (true, { scenarioActorInRange with casting := true }) :=
  have h1 := (doSpellAttack_cases scenarioDeclared scenarioSpellMgr scenarioActorInRange 1).2.1
    plainSpell rfl (by decide) rfl rfl
  ⟨h1.1, h1.2.1,
    (doSpellAttack_cases scenarioDeclared scenarioSpellMgr scenarioActorInRange 0).2.2
      rfl (by decide) (Or.inl rfl),
    (doSpellAttack_cases scenarioDeclared scenarioSpellMgr
      { scenarioActorInRange with casting := true } 1).1 (Or.inl rfl)⟩

/-! ## Default selector, all checks -/

/-- C15: `DefaultTargetSelector` accepts a target exactly when the actor reference is not
null, the target is not null, the target is not the excepted unit, player-only is off or
the target is a player, a positive distance has the target within that combat range, a
negative distance has it not within the range of the absolute value, a positive aura id is
an aura of the target and a negative aura id is not, with no distance test for distance 0
and no aura test for aura 0. -/
theorem default_selector_accepts_iff (s : DefaultTargetSelector) (target : Option Unit) :
    s.call target = true ↔
      ∃ (me : Actor) (t : Unit), s._me = some me ∧ target = some t
        ∧ s._exception ≠ some t
        ∧ (s._playerOnly = false ∨ me.typeId t = TypeID.TYPEID_PLAYER)
        ∧ (0 < s._dist → me.isWithinCombatRange t s._dist = true)
        ∧ (s._dist < 0 → me.isWithinCombatRange t (-s._dist) = false)
        ∧ (0 < s._aura → me.hasAura t s._aura.toNat = true)
        ∧ (s._aura < 0 → me.hasAura t (-s._aura).toNat = false) := by
  unfold DefaultTargetSelector.call
  cases hme : s._me with
  | none => simp
  | some me =>
    cases target with
    | none => simp
    | some t =>
      have hiff : (∃ (me' : Actor) (t' : Unit), some me = some me' ∧ some t = some t'
            ∧ s._exception ≠ some t'
            ∧ (s._playerOnly = false ∨ me'.typeId t' = TypeID.TYPEID_PLAYER)
            ∧ (0 < s._dist → me'.isWithinCombatRange t' s._dist = true)
            ∧ (s._dist < 0 → me'.isWithinCombatRange t' (-s._dist) = false)
            ∧ (0 < s._aura → me'.hasAura t' s._aura.toNat = true)
            ∧ (s._aura < 0 → me'.hasAura t' (-s._aura).toNat = false))
          ↔ (s._exception ≠ some t
            ∧ (s._playerOnly = false ∨ me.typeId t = TypeID.TYPEID_PLAYER)
            ∧ (0 < s._dist → me.isWithinCombatRange t s._dist = true)
            ∧ (s._dist < 0 → me.isWithinCombatRange t (-s._dist) = false)
            ∧ (0 < s._aura → me.hasAura t s._aura.toNat = true)
            ∧ (s._aura < 0 → me.hasAura t (-s._aura).toNat = false)) := by
        constructor
        · rintro ⟨me', t', h1, h2, rest⟩
          cases h1
          cases h2
          exact rest
        · intro h
          exact ⟨me, t, rfl, rfl, h⟩
      rw [hiff]
      by_cases hex : s._exception = some t
      · simp [hex]
      · have hex2 : ¬ (s._exception.isSome = true ∧ some t = s._exception) :=
          fun h => hex h.2.symm
        simp only [hex2, if_false]
        by_cases hp : s._playerOnly = true ∧ me.typeId t ≠ TypeID.TYPEID_PLAYER
        · rw [if_pos hp]
          simp [hp.1, hp.2]
        · rw [if_neg hp]
          have hp2 : s._playerOnly = false ∨ me.typeId t = TypeID.TYPEID_PLAYER := by
            by_cases h1 : s._playerOnly = true
            · exact Or.inr (by_contra fun h2 => hp ⟨h1, h2⟩)
            · exact Or.inl (by simpa using h1)
          by_cases hd1 : s._dist > 0 ∧ me.isWithinCombatRange t s._dist = false
          · rw [if_pos hd1]
            refine ⟨fun h => absurd h (by decide), ?_⟩
            rintro ⟨_, _, hin, _⟩
            rw [hin hd1.1] at hd1
            exact absurd hd1.2 (by decide)
          · rw [if_neg hd1]
            by_cases hd2 : s._dist < 0 ∧ me.isWithinCombatRange t (-s._dist) = true
            · rw [if_pos hd2]
              refine ⟨fun h => absurd h (by decide), ?_⟩
              rintro ⟨_, _, _, hout, _⟩
              rw [hout hd2.1] at hd2
              exact absurd hd2.2 (by decide)
            · rw [if_neg hd2]
              have hin : 0 < s._dist → me.isWithinCombatRange t s._dist = true := by
                intro h
                by_contra hn
                exact hd1 ⟨h, by simpa using hn⟩
              have hout : s._dist < 0 → me.isWithinCombatRange t (-s._dist) = false := by
                intro h
                by_contra hn
                exact hd2 ⟨h, by simpa using hn⟩
              by_cases ha : s._aura = 0
              · rw [if_neg (not_not.mpr ha)]
                refine ⟨fun _ => ⟨hex, hp2, hin, hout, ?_, ?_⟩, fun _ => rfl⟩
                · intro h
                  rw [ha] at h
                  exact absurd h (by decide)
                · intro h
                  rw [ha] at h
                  exact absurd h (by decide)
              · rw [if_pos ha]
                by_cases hpos : s._aura > 0
                · rw [if_pos hpos]
                  by_cases hh : me.hasAura t s._aura.toNat = false
                  · rw [if_pos hh]
                    refine ⟨fun h => absurd h (by decide), ?_⟩
                    rintro ⟨_, _, _, _, hhas, _⟩
                    rw [hhas hpos] at hh
                    exact absurd hh (by decide)
                  · rw [if_neg hh]
                    exact ⟨fun _ => ⟨hex, hp2, hin, hout, fun _ => by simpa using hh,
                      fun h => absurd hpos (not_lt.mpr (le_of_lt h))⟩, fun _ => rfl⟩
                · rw [if_neg hpos]
                  have hneg : s._aura < 0 := lt_of_le_of_ne (not_lt.mp hpos) ha
                  by_cases hh : me.hasAura t (-s._aura).toNat = true
                  · rw [if_pos hh]
                    refine ⟨fun h => absurd h (by decide), ?_⟩
                    rintro ⟨_, _, _, _, _, hl⟩
                    rw [hl hneg] at hh
                    exact absurd hh (by decide)
                  · rw [if_neg hh]
                    exact ⟨fun _ => ⟨hex, hp2, hin, hout, fun h => absurd h hpos,
                      fun _ => by simpa using hh⟩, fun _ => rfl⟩

/-- Witness of C15: the debuff predicate of spell 2 over the scenario with every unit in
range accepts the victim `B`, which is in range 40 and carries no aura, and rejects the null
target. -/
theorem default_selector_accepts_iff_witness :
    (debuffSelector scenarioActorInRange debuffSpell 2).call (some unitB) = true
      ∧ ¬ ((debuffSelector scenarioActorInRange debuffSpell 2).call none = true) :=
  ⟨(default_selector_accepts_iff (debuffSelector scenarioActorInRange debuffSpell 2)
        (some unitB)).mpr
      ⟨scenarioActorInRange, unitB, rfl, rfl, by decide, Or.inl rfl, fun _ => rfl,
        fun h => absurd h (by decide), fun h => absurd h (by decide), fun _ => rfl⟩,
    fun h =>
      match (default_selector_accepts_iff (debuffSelector scenarioActorInRange debuffSpell 2)
        none).mp h with
      | ⟨_, _, _, htarget, _⟩ => Option.noConfusion htarget⟩

/-! ## Lemmas on the classification cache -/

theorem maxCategory_right_comm (a b c : AITarget) :
    maxCategory (maxCategory a b) c = maxCategory (maxCategory a c) b := by
  cases a <;> cases b <;> cases c <;> rfl

theorem rank_maxCategory (a b : AITarget) :
    (maxCategory a b).rank = max a.rank b.rank := by
  cases a <;> cases b <;> rfl

theorem rank_injective (a b : AITarget) (h : a.rank = b.rank) : a = b := by
  cases a <;> cases b <;> first | rfl | exact absurd h (by decide)

theorem update_target_eq (AIInfo : AISpellInfoType) (a : AITarget) :
    UPDATE_TARGET AIInfo a = { AIInfo with target := maxCategory AIInfo.target a } := by
  unfold UPDATE_TARGET maxCategory
  split <;> rfl

theorem scanEffect_eq (spellInfo : SpellInfo) (AIInfo : AISpellInfoType)
    (effect : SpellEffectInfo) :
    scanEffect spellInfo AIInfo effect
      = { AIInfo with target := maxCategory AIInfo.target (effectCategory spellInfo effect) } := by
  obtain ⟨tgt, cond, cd, rcd, mr⟩ := AIInfo
  obtain ⟨eff, shape⟩ := effect
  unfold effectCategory scanEffect
  simp only [update_target_eq]
  cases shape <;> cases eff <;> cases hpos : spellInfo.IsPositive <;> cases tgt <;>
    simp [maxCategory, AITarget.rank]

theorem foldl_scanEffect_eq (spellInfo : SpellInfo) (effects : List SpellEffectInfo)
    (AIInfo : AISpellInfoType) :
    effects.foldl (scanEffect spellInfo) AIInfo
      = { AIInfo with
          target := (effects.map (effectCategory spellInfo)).foldl maxCategory AIInfo.target } := by
  induction effects generalizing AIInfo with
  | nil => rfl
  | cons e es ih =>
    rw [List.foldl_cons, ih, scanEffect_eq]
    rfl

/-- The target category written by the loop body: the fold of the effect categories over
the category of the entry when the max range is not zero, the category of the entry
otherwise. -/
theorem fillEntry_target (spellInfo : SpellInfo) (AIInfo : AISpellInfoType) :
    (fillEntry spellInfo AIInfo).target
      = if spellInfo.GetMaxRange false ≠ 0 then
          (spellInfo.GetEffects.map (effectCategory spellInfo)).foldl maxCategory AIInfo.target
        else AIInfo.target := by
  unfold fillEntry
  simp only [foldl_scanEffect_eq]
  by_cases hr : spellInfo.GetMaxRange false = 0 <;>
    by_cases hd : spellInfo.castableWhileDead = true <;>
    by_cases hp : spellInfo.IsPassive = true ∨ spellInfo.GetDuration = -1 <;>
    by_cases hc : AIInfo.cooldown < spellInfo.RecoveryTime <;>
    simp [hr, hd, hp, hc]

theorem foldl_maxCategory_rank (cats : List AITarget) (start : AITarget) :
    (cats.foldl maxCategory start).rank
      = max start.rank ((cats.map AITarget.rank).foldr max 0) := by
  induction cats generalizing start with
  | nil => simp
  | cons c cs ih =>
    rw [List.foldl_cons, ih, rank_maxCategory]
    simp [max_assoc]

theorem foldl_maxCategory_ge (cats : List AITarget) (start : AITarget) :
    start.rank ≤ (cats.foldl maxCategory start).rank
      ∧ ∀ c ∈ cats, c.rank ≤ (cats.foldl maxCategory start).rank := by
  induction cats generalizing start with
  | nil => simp
  | cons c cs ih =>
    rw [List.foldl_cons]
    have h := ih (maxCategory start c)
    rw [rank_maxCategory] at h
    refine ⟨le_trans (le_max_left _ _) h.1, ?_⟩
    intro d hd
    rcases List.mem_cons.mp hd with rfl | hd
    · exact le_trans (le_max_right _ _) h.1
    · exact h.2 d hd

theorem foldl_maxCategory_mem (cats : List AITarget) (start : AITarget) :
    cats.foldl maxCategory start = start ∨ cats.foldl maxCategory start ∈ cats := by
  induction cats generalizing start with
  | nil => exact Or.inl rfl
  | cons c cs ih =>
    rw [List.foldl_cons]
    rcases ih (maxCategory start c) with h | h
    · rw [h]
      unfold maxCategory
      split
      · exact Or.inr (List.mem_cons_self _ _)
      · exact Or.inl rfl
    · exact Or.inr (List.mem_cons_of_mem _ h)

theorem foldl_maxCategory_append_le (pre post : List AITarget) (start : AITarget) :
    (pre.foldl maxCategory start).rank ≤ ((pre ++ post).foldl maxCategory start).rank := by
  rw [List.foldl_append]
  exact (foldl_maxCategory_ge post _).1

/-- The loop of `FillAISpellInfo` over the first `k` indices: the length is kept, every entry
below `k` is the entry of its own spell, every other entry is untouched. -/
theorem fillLoop_spec (mgr : SpellMgr) (k : Nat) (init : List AISpellInfoType) :
    ((List.range k).foldl (fillStep mgr) init).length = init.length
      ∧ ∀ i : Nat, ((List.range k).foldl (fillStep mgr) init)[i]?
          = if i < k then (init[i]?).map (entryOf mgr i) else init[i]? := by
  induction k with
  | zero => simp
  | succ k ih =>
    rw [List.range_succ, List.foldl_append, List.foldl_cons, List.foldl_nil]
    generalize hT : (List.range k).foldl (fillStep mgr) init = T at ih
    obtain ⟨hlen, hget⟩ := ih
    have hk : T[k]? = init[k]? := by
      rw [hget k, if_neg (Nat.lt_irrefl k)]
    unfold fillStep
    cases hs : mgr.GetSpellInfo k with
    | none =>
      refine ⟨hlen, fun i => ?_⟩
      rw [hget i]
      by_cases hik : i < k
      · rw [if_pos hik, if_pos (Nat.lt_succ_of_lt hik)]
      · rw [if_neg hik]
        by_cases hik2 : i = k
        · subst hik2
          rw [if_pos (Nat.lt_succ_self i)]
          cases init[i]? <;> simp [entryOf, hs]
        · rw [if_neg (by omega)]
    | some spellInfo =>
      cases he : T[k]? with
      | none =>
        refine ⟨hlen, fun i => ?_⟩
        show T[i]? = _
        rw [hget i]
        by_cases hik : i < k
        · rw [if_pos hik, if_pos (Nat.lt_succ_of_lt hik)]
        · rw [if_neg hik]
          by_cases hik2 : i = k
          · subst hik2
            rw [if_pos (Nat.lt_succ_self i), ← hk, he]
            rfl
          · rw [if_neg (by omega)]
      | some e =>
        have hklt : k < T.length := by
          by_contra hn
          rw [List.getElem?_eq_none (Nat.le_of_not_lt hn)] at he
          exact Option.noConfusion he
        refine ⟨by show (T.set k _).length = _; rw [List.length_set, hlen], fun i => ?_⟩
        show (T.set k (fillEntry spellInfo e))[i]? = _
        rw [List.getElem?_set]
        by_cases hik2 : k = i
        · subst hik2
          rw [if_pos rfl, if_pos hklt, if_pos (Nat.lt_succ_self k), ← hk, he]
          simp [entryOf, hs]
        · rw [if_neg hik2, hget i]
          by_cases hik : i < k
          · rw [if_pos hik, if_pos (Nat.lt_succ_of_lt hik)]
          · rw [if_neg hik, if_neg (by omega)]

/-- Every entry of the table built by `FillAISpellInfo` is the entry of its own spell. -/
theorem fillAISpellInfo_getElem (defaultEntry : AISpellInfoType) (mgr : SpellMgr) (i : Nat)
    (hi : i < mgr.GetSpellInfoStoreSize) :
    (FillAISpellInfo defaultEntry mgr)[i]? = some (entryOf mgr i defaultEntry) := by
  unfold FillAISpellInfo
  rw [(fillLoop_spec mgr _ _).2 i, if_pos hi, List.getElem?_replicate, if_pos hi]
  rfl

theorem effectCategory_congr (s s' : SpellInfo) (e : SpellEffectInfo)
    (h : s'.IsPositive = s.IsPositive) : effectCategory s' e = effectCategory s e := by
  unfold effectCategory scanEffect
  rw [h]

theorem rank_le_debuff (a : AITarget) : a.rank ≤ AITarget.AITARGET_DEBUFF.rank := by
  cases a <;> decide

/-! ## Target category of the classification cache -/

/-- C16: for a present spell `i` with a nonzero max range, the target category that
`FillAISpellInfo` assigns is the maximum, in the order of the enumeration, of the default
category and the categories the effects contribute each on its own: it is their fold by
`maxCategory`, it is not below the default category nor below the category of any effect, it
is the default category or the category of one of the effects, it is not below the category
reached on any initial part of the effect list, and it is the same for every table that
lists the effects of the spell in another order. -/
theorem fill_target_is_maximum (defaultEntry : AISpellInfoType) (mgr : SpellMgr) (i : Nat)
    (spellInfo : SpellInfo)
    (hi : i < mgr.GetSpellInfoStoreSize)
    (hs : mgr.GetSpellInfo i = some spellInfo)
    (hrange : spellInfo.GetMaxRange false ≠ 0) :
    (FillAISpellInfo defaultEntry mgr)[i]? = some (fillEntry spellInfo defaultEntry)
      ∧ (fillEntry spellInfo defaultEntry).target
        = (spellInfo.GetEffects.map (effectCategory spellInfo)).foldl maxCategory
            defaultEntry.target
      ∧ defaultEntry.target.rank ≤ (fillEntry spellInfo defaultEntry).target.rank
      ∧ (∀ e ∈ spellInfo.GetEffects,
          (effectCategory spellInfo e).rank ≤ (fillEntry spellInfo defaultEntry).target.rank)
      ∧ ((fillEntry spellInfo defaultEntry).target = defaultEntry.target
          ∨ ∃ e ∈ spellInfo.GetEffects,
              (fillEntry spellInfo defaultEntry).target = effectCategory spellInfo e)
      ∧ (∀ pre post : List SpellEffectInfo, spellInfo.GetEffects = pre ++ post →
          (fillEntry { spellInfo with GetEffects := pre } defaultEntry).target.rank
            ≤ (fillEntry spellInfo defaultEntry).target.rank)
      ∧ (∀ (mgr' : SpellMgr) (effects : List SpellEffectInfo),
          effects.Perm spellInfo.GetEffects →
          i < mgr'.GetSpellInfoStoreSize →
          mgr'.GetSpellInfo i = some { spellInfo with GetEffects := effects } →
          ((FillAISpellInfo defaultEntry mgr')[i]?).map (fun e => e.target)
            = some (fillEntry spellInfo defaultEntry).target) := by
  have htable : (FillAISpellInfo defaultEntry mgr)[i]? = some (fillEntry spellInfo defaultEntry) := by
    rw [fillAISpellInfo_getElem defaultEntry mgr i hi]
    simp [entryOf, hs]
  have htarget : (fillEntry spellInfo defaultEntry).target
      = (spellInfo.GetEffects.map (effectCategory spellInfo)).foldl maxCategory
          defaultEntry.target := by
    rw [fillEntry_target, if_pos hrange]
  have hge := foldl_maxCategory_ge (spellInfo.GetEffects.map (effectCategory spellInfo))
    defaultEntry.target
  refine ⟨htable, htarget, ?_, ?_, ?_, ?_, ?_⟩
  · rw [htarget]
    exact hge.1
  · intro e he
    rw [htarget]
    exact hge.2 _ (List.mem_map_of_mem _ he)
  · rw [htarget]
    rcases foldl_maxCategory_mem (spellInfo.GetEffects.map (effectCategory spellInfo))
      defaultEntry.target with h | h
    · exact Or.inl h
    · obtain ⟨e, he, hcat⟩ := List.mem_map.mp h
      exact Or.inr ⟨e, he, hcat.symm⟩
  · intro pre post hsplit
    rw [htarget, fillEntry_target, if_pos hrange, hsplit, List.map_append]
    exact foldl_maxCategory_append_le _ _ _
  · intro mgr' effects hperm hi' hs'
    rw [fillAISpellInfo_getElem defaultEntry mgr' i hi']
    simp only [entryOf, hs', Option.map_some', Option.some.injEq]
    rw [htarget, fillEntry_target, if_pos hrange]
    exact List.Perm.foldl_eq' (hperm.map _)
      (fun x _ y _ z => maxCategory_right_comm z x y) _

/-- Witness of C16 on the scenario table: spell 2 applies an aura on the enemy unit and then
damages the enemy area; its category is debuff, also with the two effects swapped. -/
theorem fill_target_is_maximum_witness :
    ((FillAISpellInfo scenarioDefaultEntry scenarioSpellMgr)[2]?).map (fun e => e.target)
        = some AITarget.AITARGET_DEBUFF
      ∧ ((FillAISpellInfo scenarioDefaultEntry
            { scenarioSpellMgr with
              GetSpellInfo := fun _ =>
                some { debuffSpell with GetEffects := debuffSpell.GetEffects.reverse } })[2]?).map
          (fun e => e.target)
        = some (fillEntry debuffSpell scenarioDefaultEntry).target :=
  have h := fill_target_is_maximum scenarioDefaultEntry scenarioSpellMgr 2 debuffSpell
    (by decide) rfl (by decide)
  ⟨by decide,
    h.2.2.2.2.2.2
      { scenarioSpellMgr with
        GetSpellInfo := fun _ =>
          some { debuffSpell with GetEffects := debuffSpell.GetEffects.reverse } }
      debuffSpell.GetEffects.reverse (List.reverse_perm _) (by decide) rfl⟩

/-- C17 as stated fails: spell 4 of the scenario table is positive, has a nonzero max range
and a single effect that applies an aura with the enemy-area-by-destination shape; its
category is buff-target, not best-enemy-search. -/
theorem positive_area_aura_counterexample :
    positiveAreaAura.IsPositive = true
      ∧ positiveAreaAura.GetMaxRange false ≠ 0
      ∧ positiveAreaAura.GetEffects
        = [⟨SpellEffects.SPELL_EFFECT_APPLY_AURA, Targets.TARGET_UNIT_DEST_AREA_ENEMY⟩]
      ∧ scenarioSpellMgr.GetSpellInfo 4 = some positiveAreaAura
      ∧ ((FillAISpellInfo scenarioDefaultEntry scenarioSpellMgr)[4]?).map (fun e => e.target)
        = some AITarget.AITARGET_BUFF
      ∧ AITarget.AITARGET_BUFF ≠ AITarget.AITARGET_ENEMY := by
  refine ⟨rfl, by decide, rfl, rfl, by decide, by decide⟩

/-- C17 (amended): in the loop body of `FillAISpellInfo`, for a spell with nonzero max range,
an aura-applying effect targeting the single enemy unit raises the category to debuff-search,
and an aura-applying effect of a positive spell raises the category at least to buff-target
whenever that effect does not target the single enemy unit, the enemy-area shape included;
from the category self, a positive spell whose only effect applies an aura with the
enemy-area-by-destination shape is classified buff-target. -/
theorem fill_aura_categories (spellInfo : SpellInfo) (AIInfo : AISpellInfoType)
    (hrange : spellInfo.GetMaxRange false ≠ 0) :
    ((∃ e ∈ spellInfo.GetEffects, e.Effect = SpellEffects.SPELL_EFFECT_APPLY_AURA
          ∧ e.TargetA = Targets.TARGET_UNIT_TARGET_ENEMY) →
        (fillEntry spellInfo AIInfo).target = AITarget.AITARGET_DEBUFF)
      ∧ (spellInfo.IsPositive = true →
          (∃ e ∈ spellInfo.GetEffects, e.Effect = SpellEffects.SPELL_EFFECT_APPLY_AURA
            ∧ e.TargetA ≠ Targets.TARGET_UNIT_TARGET_ENEMY) →
          AITarget.AITARGET_BUFF.rank ≤ (fillEntry spellInfo AIInfo).target.rank)
      ∧ (spellInfo.IsPositive = true →
          spellInfo.GetEffects
            = [⟨SpellEffects.SPELL_EFFECT_APPLY_AURA, Targets.TARGET_UNIT_DEST_AREA_ENEMY⟩] →
          AIInfo.target = AITarget.AITARGET_SELF →
          (fillEntry spellInfo AIInfo).target = AITarget.AITARGET_BUFF) := by
  have htarget : (fillEntry spellInfo AIInfo).target
      = (spellInfo.GetEffects.map (effectCategory spellInfo)).foldl maxCategory
          AIInfo.target := by
    rw [fillEntry_target, if_pos hrange]
  have hge := foldl_maxCategory_ge (spellInfo.GetEffects.map (effectCategory spellInfo))
    AIInfo.target
  refine ⟨?_, ?_, ?_⟩
  · rintro ⟨e, he, heff, hshape⟩
    have hcat : effectCategory spellInfo e = AITarget.AITARGET_DEBUFF := by
      obtain ⟨eff, shape⟩ := e
      simp only at heff hshape
      subst heff
      subst hshape
      simp [effectCategory, scanEffect, UPDATE_TARGET, AITarget.rank]
    have hle := hge.2 _ (List.mem_map_of_mem (effectCategory spellInfo) he)
    rw [hcat, ← htarget] at hle
    exact rank_injective _ _ (Nat.le_antisymm (rank_le_debuff _) hle)
  · rintro hpos ⟨e, he, heff, hshape⟩
    have hcat : effectCategory spellInfo e = AITarget.AITARGET_BUFF := by
      obtain ⟨eff, shape⟩ := e
      simp only at heff hshape
      subst heff
      cases shape <;>
        simp_all [effectCategory, scanEffect, UPDATE_TARGET, AITarget.rank]
    have hle := hge.2 _ (List.mem_map_of_mem (effectCategory spellInfo) he)
    rw [hcat, ← htarget] at hle
    exact hle
  · intro hpos heffects hself
    rw [htarget, heffects, hself]
    simp [effectCategory, scanEffect, UPDATE_TARGET, AITarget.rank, maxCategory, hpos]

/-- Witness of C17 (amended): the positive area aura of the scenario, from the default entry
of category self, is classified buff-target. -/
theorem fill_aura_categories_witness :
    (fillEntry positiveAreaAura scenarioDefaultEntry).target = AITarget.AITARGET_BUFF :=
  (fill_aura_categories positiveAreaAura scenarioDefaultEntry (by decide)).2.2 rfl rfl rfl

/-- C18: for a present spell `i` whose max range is zero, `FillAISpellInfo` leaves the target
category of the entry at the category of the default entry, whatever the effects, target
shapes and positivity of the spell are; with the default category self it is self. -/
theorem fill_zero_range_keeps_target (defaultEntry : AISpellInfoType) (mgr : SpellMgr)
    (i : Nat) (spellInfo : SpellInfo)
    (hi : i < mgr.GetSpellInfoStoreSize)
    (hs : mgr.GetSpellInfo i = some spellInfo)
    (hzero : spellInfo.GetMaxRange false = 0) :
    (FillAISpellInfo defaultEntry mgr)[i]? = some (fillEntry spellInfo defaultEntry)
      ∧ (fillEntry spellInfo defaultEntry).target = defaultEntry.target
      ∧ (defaultEntry.target = AITarget.AITARGET_SELF →
          ((FillAISpellInfo defaultEntry mgr)[i]?).map (fun e => e.target)
            = some AITarget.AITARGET_SELF) := by
  have htable : (FillAISpellInfo defaultEntry mgr)[i]? = some (fillEntry spellInfo defaultEntry) := by
    rw [fillAISpellInfo_getElem defaultEntry mgr i hi]
    simp [entryOf, hs]
  have htarget : (fillEntry spellInfo defaultEntry).target = defaultEntry.target := by
    rw [fillEntry_target, if_neg (not_not.mpr hzero)]
  refine ⟨htable, htarget, fun hself => ?_⟩
  rw [htable, Option.map_some', htarget, hself]

/-- Witness of C18: spell 5 of the scenario table applies an aura on the enemy unit but has
max range 0; its category stays self. -/
theorem fill_zero_range_keeps_target_witness :
    debuffSpellNoRange.GetEffects = debuffSpell.GetEffects
      ∧ ((FillAISpellInfo scenarioDefaultEntry scenarioSpellMgr)[5]?).map (fun e => e.target)
        = some AITarget.AITARGET_SELF :=
  ⟨rfl,
    (fill_zero_range_keeps_target scenarioDefaultEntry scenarioSpellMgr 5 debuffSpellNoRange
      (by decide) rfl rfl).2.2 rfl⟩

/-! ## Shape of the classification cache -/

/-- C12: for a spell id below the capacity of the static table that has no descriptor, with
the cache built by `FillAISpellInfo` from that table and a default entry of category self:
`DoGetSpellMaxRange` returns 0, the cache entry is the default entry, and `DoCast(spellId)`
makes one cast on the actor itself and returns the verdict of that cast. -/
theorem absent_spell_degrades (rnd : Containers) (decl : Declared) (mgr : SpellMgr)
    (defaultEntry : AISpellInfoType) (me : Actor) (spellId : Nat)
    (hid : spellId < mgr.GetSpellInfoStoreSize)
    (habsent : mgr.GetSpellInfo spellId = none)
    (hself : defaultEntry.target = AITarget.AITARGET_SELF) :
    (∀ positive : Bool, DoGetSpellMaxRange mgr spellId positive = 0)
      ∧ (FillAISpellInfo defaultEntry mgr)[spellId]? = some defaultEntry
      ∧ DoCastSpellId rnd decl mgr (FillAISpellInfo defaultEntry mgr) me spellId
        = some
            (me.castResult (some me.self) spellId decl.castArgsFalse,
              { me with
                calls := me.calls ++ [Call.CastSpell (some me.self) spellId decl.castArgsFalse] }) := by
  have htable : (FillAISpellInfo defaultEntry mgr)[spellId]? = some defaultEntry := by
    rw [fillAISpellInfo_getElem defaultEntry mgr spellId hid]
    simp [entryOf, habsent]
  refine ⟨fun positive => by simp [DoGetSpellMaxRange, habsent], htable, ?_⟩
  unfold DoCastSpellId
  rw [htable]
  simp only [hself]
  rfl

/-- Witness of C12: id 0 of the scenario table is absent; the cast goes to the actor, unit 0. -/
theorem absent_spell_degrades_witness :
    DoGetSpellMaxRange scenarioSpellMgr 0 false = 0
      ∧ (DoCastSpellId frontContainers scenarioDeclared scenarioSpellMgr
            (FillAISpellInfo scenarioDefaultEntry scenarioSpellMgr) scenarioActor 0).map
          (fun r => (r.1, r.2.calls))
        = some (SpellCastResult.SPELL_CAST_OK, [Call.CastSpell (some 0) 0 ⟨0⟩]) :=
  have h := absent_spell_degrades frontContainers scenarioDeclared scenarioSpellMgr
    scenarioDefaultEntry scenarioActor 0 (by decide) rfl rfl
  ⟨h.1 false, by rw [h.2.2]; rfl⟩

/-- C13 as stated fails: spell 3 of the scenario table is a debuff spell flagged
`AURA_INTERRUPT_FLAG_NOT_VICTIM`; the current victim `B` satisfies the debuff predicate, yet
with the pick-from-the-back helper the cast goes to `C`. -/
theorem debuff_prefers_victim_counterexample :
    scenarioActorInRange.victim = some unitB
      ∧ ((FillAISpellInfo scenarioDefaultEntry scenarioSpellMgr)[3]?).map (fun e => e.target)
        = some AITarget.AITARGET_DEBUFF
      ∧ (debuffSelector scenarioActorInRange debuffSpellNotVictim 3).call (some unitB) = true
      ∧ (DoCastSpellId backContainers scenarioDeclared scenarioSpellMgr
            (FillAISpellInfo scenarioDefaultEntry scenarioSpellMgr) scenarioActorInRange 3).map
          (fun r => (r.1, r.2.calls))
        = some (SpellCastResult.SPELL_CAST_OK, [Call.CastSpell (some unitC) 3 ⟨0⟩]) := by
  refine ⟨rfl, by decide, by decide, by decide⟩

/-- C13 (amended): in `DoCast(spellId)` for a spell classified debuff-search whose descriptor
exists: when the aura-interrupt flags of the spell do not carry
`AURA_INTERRUPT_FLAG_NOT_VICTIM` and the current victim satisfies the debuff predicate, the
cast goes to the current victim; when the flag is carried or the victim does not satisfy the
predicate, the target is what select-one with the Random method, offset 0 and the same
predicate returns, and without such a target the verdict is `SPELL_FAILED_BAD_TARGETS` with
no cast; for a spell id below `2 ^ 31` the aura key of the predicate is `-spellId`. -/
theorem doCast_debuff_target (rnd : Containers) (decl : Declared) (mgr : SpellMgr)
    (AISpellInfo : List AISpellInfoType) (me : Actor) (spellId : Nat)
    (info : AISpellInfoType) (spellInfo : SpellInfo)
    (hinfo : AISpellInfo[spellId]? = some info)
    (hdebuff : info.target = AITarget.AITARGET_DEBUFF)
    (hspell : mgr.GetSpellInfo spellId = some spellInfo) :
    (spellInfo.AuraInterruptFlags &&& decl.AURA_INTERRUPT_FLAG_NOT_VICTIM = 0 →
        (debuffSelector me spellInfo spellId).call me.victim = true →
        DoCastSpellId rnd decl mgr AISpellInfo me spellId
          = some (me.CastSpell me.victim spellId decl.castArgsFalse))
      ∧ (¬ (spellInfo.AuraInterruptFlags &&& decl.AURA_INTERRUPT_FLAG_NOT_VICTIM = 0
            ∧ (debuffSelector me spellInfo spellId).call me.victim = true) →
        DoCastSpellId rnd decl mgr AISpellInfo me spellId
          = match SelectTarget rnd me SelectTargetMethod.Random 0
              (debuffSelector me spellInfo spellId).call with
            | some t => some (me.CastSpell (some t) spellId decl.castArgsFalse)
            | none => some (SpellCastResult.SPELL_FAILED_BAD_TARGETS, me))
      ∧ (spellId < 2 ^ 31 → (debuffSelector me spellInfo spellId)._aura = -(spellId : Int)) := by
  have hnew : DefaultTargetSelector.new (some me) (spellInfo.GetMaxRange false)
      spellInfo.onlyTargetPlayers true (-(toInt32 spellId))
      = some (debuffSelector me spellInfo spellId) := rfl
  refine ⟨?_, ?_, ?_⟩
  · intro hflag hcall
    have hcond : ¬ (spellInfo.AuraInterruptFlags &&& decl.AURA_INTERRUPT_FLAG_NOT_VICTIM ≠ 0)
        ∧ (debuffSelector me spellInfo spellId).call me.victim = true :=
      ⟨not_not.mpr hflag, hcall⟩
    unfold DoCastSpellId
    rw [hinfo]
    simp only [hdebuff, hspell, hnew, if_pos hcond]
    cases hv : me.victim with
    | none =>
      rw [hv] at hcall
      simp [DefaultTargetSelector.call, debuffSelector] at hcall
    | some v => rfl
  · intro hnot
    have hcond : ¬ (¬ (spellInfo.AuraInterruptFlags &&& decl.AURA_INTERRUPT_FLAG_NOT_VICTIM ≠ 0)
        ∧ (debuffSelector me spellInfo spellId).call me.victim = true) :=
      fun h => hnot ⟨not_not.mp h.1, h.2⟩
    unfold DoCastSpellId
    rw [hinfo]
    simp only [hdebuff, hspell, hnew, if_neg hcond]
  · intro hlt
    show -(toInt32 spellId) = -(spellId : Int)
    unfold toInt32
    rw [Nat.mod_eq_of_lt (by omega), if_pos hlt]

/-- Witness of C13 (amended): spell 2 of the scenario table is a debuff spell without the
flag; the victim `B` satisfies the predicate and the cast goes to `B`, whatever the random
helper would pick. -/
theorem doCast_debuff_target_witness :
    (DoCastSpellId backContainers scenarioDeclared scenarioSpellMgr
          (FillAISpellInfo scenarioDefaultEntry scenarioSpellMgr) scenarioActorInRange 2).map
        (fun r => (r.1, r.2.calls))
      = some (SpellCastResult.SPELL_CAST_OK, [Call.CastSpell (some unitB) 2 ⟨0⟩]) :=
  have h := (doCast_debuff_target backContainers scenarioDeclared scenarioSpellMgr
    (FillAISpellInfo scenarioDefaultEntry scenarioSpellMgr) scenarioActorInRange 2
    (fillEntry debuffSpell scenarioDefaultEntry) debuffSpell
    (fillAISpellInfo_getElem scenarioDefaultEntry scenarioSpellMgr 2 (by decide))
    (by decide) rfl).1 (by decide) (by decide)
  by rw [h]; rfl

/-! ## Melee range of the spell-legality selector -/

/-- The constant `4.0f / 3.0f` is `11184811 * 2 ^ (-23)`, and `8.0f / 3.0f` is twice that. -/
theorem four_thirds_f32 :
    F32.div (F32.lit 4) (F32.lit 3) = F32.finite 11184811 (-23)
      ∧ F32.div (F32.lit 8) (F32.lit 3) = F32.finite 11184811 (-22) := by
  decide

/-- Rounding on sample values: a tie goes to the even neighbour (down at `2 ^ 24 + 1`, up at
`2 ^ 24 + 3`), the subnormal range keeps the bits above `2 ^ (-149)`, half of the least
subnormal rounds to zero, and the midpoint above the greatest finite value overflows. -/
theorem round_f32_samples :
    F32.round 16777217 0 = F32.finite 8388608 1
      ∧ F32.round 16777219 0 = F32.finite 8388610 1
      ∧ F32.round 5 (-151) = F32.finite 1 (-149)
      ∧ F32.round 1 (-150) = F32.finite 0 (-149)
      ∧ F32.round 33554431 103 = F32.inf false
      ∧ F32.round 16777215 104 = F32.finite 16777215 104
      ∧ F32.isFloat (F32.finite 16777217 0) = false := by
  decide

/-- The comparison of two finite `float` values is the comparison of their exact values. -/
theorem lt_finite_iff (m1 e1 m2 e2 : Int) :
    F32.lt (F32.finite m1 e1) (F32.finite m2 e2) = true
      ↔ (m1 : ℚ) * (2 : ℚ) ^ e1 < (m2 : ℚ) * (2 : ℚ) ^ e2 := by
  have h1 : ((e1 - min e1 e2).toNat : Int) = e1 - min e1 e2 :=
    Int.toNat_of_nonneg (sub_nonneg.mpr (min_le_left _ _))
  have h2 : ((e2 - min e1 e2).toNat : Int) = e2 - min e1 e2 :=
    Int.toNat_of_nonneg (sub_nonneg.mpr (min_le_right _ _))
  have hpos : (0 : ℚ) < (2 : ℚ) ^ (min e1 e2) := zpow_pos (by norm_num) _
  have hs1 : (m1 : ℚ) * (2 : ℚ) ^ e1
      = ((shiftLeft m1 (e1 - min e1 e2).toNat : Int) : ℚ) * (2 : ℚ) ^ (min e1 e2) := by
    unfold shiftLeft
    push_cast
    rw [mul_assoc, ← zpow_natCast, ← zpow_add₀ (by norm_num : (2 : ℚ) ≠ 0), h1]
    congr 2
    ring
  have hs2 : (m2 : ℚ) * (2 : ℚ) ^ e2
      = ((shiftLeft m2 (e2 - min e1 e2).toNat : Int) : ℚ) * (2 : ℚ) ^ (min e1 e2) := by
    unfold shiftLeft
    push_cast
    rw [mul_assoc, ← zpow_natCast, ← zpow_add₀ (by norm_num : (2 : ℚ) ≠ 0), h2]
    congr 2
    ring
  rw [hs1, hs2, mul_lt_mul_right hpos, Int.cast_lt]
  simp [F32.lt]

/-- C20 as stated fails: caster reach `3.0f`, target reach `2.0f`, nominal range `5.0f`, a
melee-flagged range, nobody moving, a legal target other than the caster at squared distance
`1314361 / 32768`. That distance exceeds the square of `max (3 + 2 + 4/3) 5`, yet the target
is accepted, because the `float` bound `(3 + 4/3) + 2` is rounded up at each step. -/
theorem melee_exact_bound_counterexample :
    longReachMeleeSelector.RangeEntryFlags = some 1
      ∧ 1 &&& scenarioRangeConstants.SPELL_RANGE_MELEE ≠ 0
      ∧ longReachMeleeSelector.isMoving longReachMeleeSelector._caster = false
      ∧ longReachMeleeSelector.CheckTarget unitA = SpellCastResult.SPELL_CAST_OK
      ∧ unitA ≠ longReachMeleeSelector._caster
      ∧ (longReachMeleeSelector.GetCombatReach longReachMeleeSelector._caster).toRat = some 3
      ∧ (longReachMeleeSelector.GetCombatReach unitA).toRat = some 2
      ∧ scenarioRangeConstants.NOMINAL_MELEE_RANGE.toRat = some 5
      ∧ (longReachMeleeSelector.GetExactDistSq unitA).toRat = some (1314361 / 32768)
      ∧ ¬ ((1314361 / 32768 : ℚ) ≤ (max ((3 : ℚ) + 2 + 4 / 3) 5) ^ 2)
      ∧ (longReachMeleeSelector.GetExactDistSq unitA).isFloat = true
      ∧ longReachMeleeSelector.call scenarioRangeConstants (some unitA) = true := by
  refine ⟨rfl, by decide, rfl, rfl, by decide, ?_, ?_, ?_, ?_, by norm_num, by decide,
    by decide⟩
  · norm_num [longReachMeleeSelector, scenarioMeleeSelector, F32.toRat, F32.lit]
  · norm_num [longReachMeleeSelector, scenarioMeleeSelector, F32.toRat, F32.lit, unitA]
  · norm_num [scenarioRangeConstants, F32.toRat, F32.lit]
  · norm_num [longReachMeleeSelector, scenarioMeleeSelector, F32.toRat, unitA]

/-- C20 (amended): for a spell whose range descriptor is melee-flagged, with caster and
target not both moving and a target that passes the legality check, the selector works in
single precision: a target other than the caster is accepted exactly when its squared
distance is not greater than the `float` square of
`max ((caster reach + 4.0f / 3.0f) + target reach) NOMINAL_MELEE_RANGE`, each operation
rounded, no minimum bound applying; for finite values this is the comparison `≤` of the
exact values of the squared distance and of that rounded square; when the rounded sum is
below the nominal constant the bound is the nominal melee range; the caster itself is
accepted with no range test. -/
theorem spell_selector_melee_range (c : RangeConstants) (s : SpellTargetSelector)
    (target : Unit) (flags : Nat)
    (hrange : s.RangeEntryFlags = some flags)
    (hmelee : flags &&& c.SPELL_RANGE_MELEE ≠ 0)
    (hmoving : ¬ (s.isMoving s._caster = true ∧ s.isMoving target = true))
    (hlegal : s.CheckTarget target = SpellCastResult.SPELL_CAST_OK) :
    (target ≠ s._caster →
        (s.call c (some target) = true ↔
          F32.lt (meleeMaxRangeSq c s target) (s.GetExactDistSq target) = false))
      ∧ (target ≠ s._caster →
          ∀ bound dist : ℚ, (meleeMaxRangeSq c s target).toRat = some bound →
            (s.GetExactDistSq target).toRat = some dist →
            (s.call c (some target) = true ↔ dist ≤ bound))
      ∧ (F32.lt
            (F32.add (F32.add (s.GetCombatReach s._caster) (F32.div (F32.lit 4) (F32.lit 3)))
              (s.GetCombatReach target))
            c.NOMINAL_MELEE_RANGE = true →
          meleeRangeMod c s target = c.NOMINAL_MELEE_RANGE)
      ∧ (target = s._caster → s.call c (some target) = true) := by
  have hnm : ¬ (s.isMoving s._caster = true ∧ s.isMoving target = true
      ∧ s.IsWalking s._caster = false ∧ s.IsWalking target = false
      ∧ (flags &&& c.SPELL_RANGE_MELEE ≠ 0 ∨ s.GetTypeId target = TypeID.TYPEID_PLAYER)) :=
    fun h => hmoving ⟨h.1, h.2.1⟩
  have hranges : s.ranges c target = (F32.lit 0, F32.lit 0, meleeRangeMod c s target) := by
    unfold SpellTargetSelector.ranges
    rw [hrange]
    simp only [if_pos hmelee, if_neg hnm]
    rfl
  have hmin : ¬ (F32.lt (F32.lit 0) (F32.mul (F32.lit 0) (F32.lit 0)) = true
      ∧ F32.lt (s.GetExactDistSq target) (F32.mul (F32.lit 0) (F32.lit 0)) = true) := by
    intro h
    exact absurd h.1 (by decide)
  have hdistinct : target ≠ s._caster →
      (s.call c (some target) = true ↔
        F32.lt (meleeMaxRangeSq c s target) (s.GetExactDistSq target) = false) := by
    intro hne
    unfold SpellTargetSelector.call
    simp only [hlegal, ne_eq, not_true_eq_false, if_false, hranges, hne, not_false_eq_true,
      if_true]
    rw [if_neg hmin]
    unfold meleeMaxRangeSq
    cases hlt : F32.lt
        (F32.mul (F32.add (F32.lit 0) (meleeRangeMod c s target))
          (F32.add (F32.lit 0) (meleeRangeMod c s target)))
        (s.GetExactDistSq target) <;> simp
  refine ⟨hdistinct, ?_, ?_, ?_⟩
  · intro hne bound dist hb hd
    rw [hdistinct hne]
    cases hB : meleeMaxRangeSq c s target with
    | inf n => rw [hB] at hb; exact Option.noConfusion hb
    | nan => rw [hB] at hb; exact Option.noConfusion hb
    | finite mb eb =>
      cases hD : s.GetExactDistSq target with
      | inf n => rw [hD] at hd; exact Option.noConfusion hd
      | nan => rw [hD] at hd; exact Option.noConfusion hd
      | finite md ed =>
        rw [hB] at hb
        rw [hD] at hd
        have hb2 : (mb : ℚ) * (2 : ℚ) ^ eb = bound := Option.some.inj hb
        have hd2 : (md : ℚ) * (2 : ℚ) ^ ed = dist := Option.some.inj hd
        rw [← hb2, ← hd2, ← not_lt, ← lt_finite_iff]
        simp
  · intro hlt
    unfold meleeRangeMod F32.max
    rw [if_pos hlt]
  · intro heq
    have hne : ¬ (target ≠ s._caster) := not_not.mpr heq
    unfold SpellTargetSelector.call
    simp only [hlegal, ne_eq, not_true_eq_false, if_false]
    rw [if_neg hne]

/-- Witness of C20 (amended): caster reach `1.5f` and target reach `1.0f` give a rounded sum
below the nominal melee range `5.0f`, so the bound is the nominal range and its square is
25: unit `A` at squared distance 25 is accepted, unit `B` at the next `float` above 25 is
rejected, and the caster itself is accepted. -/
theorem spell_selector_melee_range_witness :
    meleeRangeMod scenarioRangeConstants scenarioMeleeSelector unitA = F32.lit 5
      ∧ scenarioMeleeSelector.call scenarioRangeConstants (some unitA) = true
      ∧ ¬ (scenarioMeleeSelector.call scenarioRangeConstants (some unitB) = true)
      ∧ scenarioMeleeSelector.call scenarioRangeConstants (some 0) = true :=
  have hA := spell_selector_melee_range scenarioRangeConstants scenarioMeleeSelector unitA 1
    rfl (by decide) (by decide) rfl
  have hB := spell_selector_melee_range scenarioRangeConstants scenarioMeleeSelector unitB 1
    rfl (by decide) (by decide) rfl
  have h0 := spell_selector_melee_range scenarioRangeConstants scenarioMeleeSelector 0 1
    rfl (by decide) (by decide) rfl
  ⟨hA.2.2.1 (by decide), (hA.1 (by decide)).mpr (by decide),
    fun h => absurd ((hB.1 (by decide)).mp h) (by decide), h0.2.2.2 rfl⟩

end UnitAI
